import Mathlib

/-!
# warp-go-server: framed codec, duplex channel, host registry, request multiplexer

A shallow embedding of `pkg/server` (Go) and the properties proved about it.

Conventions of the embedding.

* A Go function that can return an error or panic returns an `Outcome`.
* A byte is a `Fin 256`; `uint32` arithmetic is arithmetic on `Nat` reduced
  modulo `2 ^ 32`.
* A Go `[]byte` is a `Slice`: its elements, and the part of the backing array
  between its length and its capacity (slice expressions are checked against
  the capacity, so that part decides whether `data[:4]` panics).
* Library calls whose code is not part of the package (`json.Marshal`,
  `json.Unmarshal`, the key normalisation of `http.Header`, `http.Error`,
  `uuid.New`, whether a response writer takes the bytes of a `Write`) are
  parameters; `WriteHeader` follows the rules of `net/http`: a call after the
  header is written is ignored, a code outside 100..999 panics.
* Objects that Go shares by reference live in two tables of `World`: the
  session states (`conns`) and the per-request objects (`tasks`); a pointer is
  an index.
* The goroutines of a session (the message loop of `onWSConnect`, the drain
  goroutine and the waiting `onRequest` of every request) move one at a time:
  each kind of move is a function `Machine → Option Machine`, `Step` is their
  union, and a channel operation of another goroutine that a call waits for
  (`duplexChan.Send`) is an argument of the call.
-/

namespace Warp

/-! ## Go run-time values -/

abbrev Byte := Fin 256

abbrev Bytes := List Byte

/-- Result of running a Go function: a normal return with a nil error, a
normal return with a non-nil error (its message), or a run-time panic. -/
inductive Outcome (α : Type) where
  | ok (a : α)
  | error (msg : String)
  | panic (msg : String)
  deriving Repr, DecidableEq

/-- The value of a normal return, if the function returned normally. -/
def Outcome.value? {α : Type} : Outcome α → Option α
  | .ok a => some a
  | _ => none

/-- A Go byte slice: `elems` are the `len` elements, `spare` is the rest of
the backing array up to the capacity. -/
structure Slice where
  elems : Bytes
  spare : Bytes
  deriving Repr, DecidableEq

/-- Length of a slice, `len(s)`. -/
def Slice.len (s : Slice) : Nat := s.elems.length

/-- Capacity of a slice, `cap(s)`. -/
def Slice.cap (s : Slice) : Nat := s.elems.length + s.spare.length

/-- The slice expression `s[lo:hi]`: it needs `lo ≤ hi ≤ cap(s)` and panics
(here `none`) otherwise. -/
def Slice.slice (s : Slice) (lo hi : Nat) : Option Slice :=
  if lo ≤ hi ∧ hi ≤ s.cap then
    some { elems := ((s.elems ++ s.spare).drop lo).take (hi - lo)
           spare := (s.elems ++ s.spare).drop hi }
  else none

/-- The slice expression `s[lo:]`: the upper bound is `len(s)`, so it needs
`lo ≤ len(s)` and panics (here `none`) otherwise. -/
def Slice.sliceFrom (s : Slice) (lo : Nat) : Option Slice :=
  if lo ≤ s.len then some { elems := s.elems.drop lo, spare := s.spare }
  else none

/-- The function `binary.LittleEndian.Uint32`: the first four bytes, least
significant first; an index panic (here `none`) on a shorter slice. -/
def Uint32 (b : Bytes) : Option Nat :=
  match b with
  | b0 :: b1 :: b2 :: b3 :: _ =>
    some (b0.val + 256 * b1.val + 65536 * b2.val + 16777216 * b3.val)
  | _ => none

/-- The bytes `binary.Write(&buffer, binary.LittleEndian, v)` appends for a
`uint32` value `v`. -/
def PutUint32 (v : Nat) : Bytes :=
  [Fin.ofNat (v % 256), Fin.ofNat (v / 256 % 256),
   Fin.ofNat (v / 65536 % 256), Fin.ofNat (v / 16777216 % 256)]

/-! ## arraybuffer_serializer.go -/

/-- The function `parseMessage`: split a frame into metadata and payload. The
Go code has no bounds check and always returns a nil error, so a frame that
does not fit its own length prefix ends in a slice-bounds panic. `4 +
metadataLength` is `uint32` arithmetic. -/
def parseMessage (data : Slice) : Outcome (Slice × Slice) :=
  match data.slice 0 4 with
  | none => .panic "slice bounds out of range"
  | some hdr =>
    match Uint32 hdr.elems with
    | none => .panic "index out of range"
    | some metadataLength =>
      match data.slice 4 ((4 + metadataLength) % 2 ^ 32) with
      | none => .panic "slice bounds out of range"
      | some metadataBytes =>
        match data.sliceFrom ((4 + metadataLength) % 2 ^ 32) with
        | none => .panic "slice bounds out of range"
        | some binaryData => .ok (metadataBytes, binaryData)

/-- The function `createMessage`: `marshal` stands for `json.Marshal` at the
type of `metadata`. `uint32(len(metadataBytes))` truncates modulo `2 ^ 32`;
writes to a `bytes.Buffer` do not fail. -/
def createMessage {α : Type} (marshal : α → Except String Bytes) (metadata : α)
    (binaryData : Bytes) : Outcome Bytes :=
  match marshal metadata with
  | .error e => .error ("error marshalling metadata: " ++ e)
  | .ok metadataBytes =>
    let metadataLength := metadataBytes.length % 2 ^ 32
    .ok (PutUint32 metadataLength ++ metadataBytes ++ binaryData)

/-! ## messages.go

The Go field `Type` of every message struct is written `type` here (its JSON
name), the Go name being a reserved word. -/

structure RegisterMessage where
  ID : String
  type : String
  APIKey : String
  Domain : String
  deriving Repr, DecidableEq

/-- The struct `ResponseStartMessage`. `Headers` is a Go map; it is held as the
list of its entries in the order in which `range` visits them. -/
structure ResponseStartMessage where
  type : String
  ID : String
  StatusCode : Int
  StatusMessage : String
  Headers : List (String × String)
  deriving Repr, DecidableEq

structure DataMessage where
  type : String
  ID : String
  Chunk : Bytes
  deriving Repr, DecidableEq

/-- The struct `DataEndMessage`. `Error` has Go type `any`; the package never
inspects it, so it is kept as the text of the decoded value, if there is one. -/
structure DataEndMessage where
  type : String
  ID : String
  Error : Option String
  deriving Repr, DecidableEq

structure WSConnectionOpened where
  type : String
  ID : String
  deriving Repr, DecidableEq

structure WSMessage where
  type : String
  ID : String
  Data : Bytes
  deriving Repr, DecidableEq

structure WSConnectionClosed where
  type : String
  ID : String
  deriving Repr, DecidableEq

/-- The interface `ClientMessage`, as the sum of the seven types that
`UnmarshalClientMessage` returns. -/
inductive ClientMessage where
  | register (msg : RegisterMessage)
  | responseStart (msg : ResponseStartMessage)
  | data (msg : DataMessage)
  | dataEnd (msg : DataEndMessage)
  | wsOpened (msg : WSConnectionOpened)
  | wsMessage (msg : WSMessage)
  | wsClosed (msg : WSConnectionClosed)
  deriving Repr, DecidableEq

/-- The method `GetID` of each client message. -/
def ClientMessage.GetID : ClientMessage → String
  | .register s => s.ID
  | .responseStart s => s.ID
  | .data s => s.ID
  | .dataEnd s => s.ID
  | .wsOpened s => s.ID
  | .wsMessage s => s.ID
  | .wsClosed s => s.ID

/-- The method `Payload`: `DataMessage` returns its chunk, every other type
inherits `noopData.Payload` and returns nil. -/
def ClientMessage.Payload : ClientMessage → Bytes
  | .data c => c.Chunk
  | _ => []

/-- The method `WithPayload`: `*DataMessage` stores the bytes in `Chunk`, every
other type inherits `noopData.WithPayload`, which does nothing. -/
def ClientMessage.WithPayload (m : ClientMessage) (data : Bytes) : ClientMessage :=
  match m with
  | .data c => .data { c with Chunk := data }
  | other => other

/-- The calls of `json.Unmarshal` made by `UnmarshalClientMessage`, one per
target type: `msgType` decodes into the anonymous struct with the single field
`Type`, the others into a zero value of the named struct. -/
structure JsonUnmarshal where
  msgType : Bytes → Except String String
  register : Bytes → Except String RegisterMessage
  responseStart : Bytes → Except String ResponseStartMessage
  data : Bytes → Except String DataMessage
  dataEnd : Bytes → Except String DataEndMessage
  wsOpened : Bytes → Except String WSConnectionOpened
  wsMessage : Bytes → Except String WSMessage
  wsClosed : Bytes → Except String WSConnectionClosed

/-- The function `UnmarshalClientMessage`: peek the `type` field, then decode
into the struct selected by the `switch`. -/
def UnmarshalClientMessage (json : JsonUnmarshal) (data : Bytes) : Outcome ClientMessage :=
  match json.msgType data with
  | .error e => .error e
  | .ok t =>
    if t = "register" then
      match json.register data with
      | .error e => .error e
      | .ok msg => .ok (.register msg)
    else if t = "response-start" then
      match json.responseStart data with
      | .error e => .error e
      | .ok msg => .ok (.responseStart msg)
    else if t = "data" then
      match json.data data with
      | .error e => .error e
      | .ok msg => .ok (.data msg)
    else if t = "data-end" then
      match json.dataEnd data with
      | .error e => .error e
      | .ok msg => .ok (.dataEnd msg)
    else if t = "ws-opened" then
      match json.wsOpened data with
      | .error e => .error e
      | .ok msg => .ok (.wsOpened msg)
    else if t = "ws-message" then
      match json.wsMessage data with
      | .error e => .error e
      | .ok msg => .ok (.wsMessage msg)
    else if t = "ws-closed" then
      match json.wsClosed data with
      | .error e => .error e
      | .ok msg => .ok (.wsClosed msg)
    else .error ("unknown message type: " ++ t)

structure RequestStartMessage where
  type : String
  Domain : String
  ID : String
  Method : String
  URL : String
  Headers : List (String × String)
  HasBody : Bool
  deriving Repr, DecidableEq

structure RequestDataEndMessage where
  type : String
  ID : String
  deriving Repr, DecidableEq

structure RequestDataMessage where
  type : String
  ID : String
  Chunk : Bytes
  deriving Repr, DecidableEq

structure RegisteredMessage where
  type : String
  ID : String
  Domain : String
  deriving Repr, DecidableEq

/-- The interface `ServerMessage`, as the sum of the types the server sends. -/
inductive ServerMessage where
  | registered (msg : RegisteredMessage)
  | requestStart (msg : RequestStartMessage)
  | requestData (msg : RequestDataMessage)
  | requestEnd (msg : RequestDataEndMessage)
  deriving Repr, DecidableEq

/-- The method `Payload` of the server messages: `*RequestDataMessage` returns
its chunk, the others inherit `noopData.Payload`. -/
def ServerMessage.Payload : ServerMessage → Bytes
  | .requestData c => c.Chunk
  | _ => []

/-! ## messages_serializer.go -/

/-- The method `messageSerializer.Serialize`. -/
def messageSerializer.Serialize (marshal : ServerMessage → Except String Bytes)
    (snd : ServerMessage) : Outcome Bytes :=
  createMessage marshal snd snd.Payload

/-- The method `messageSerializer.Deserialize`. A panic of `parseMessage` is
not recovered here. -/
def messageSerializer.Deserialize (json : JsonUnmarshal) (data : Slice) :
    Outcome ClientMessage :=
  match parseMessage data with
  | .panic p => .panic p
  | .error e => .error ("error parsing message: " ++ e)
  | .ok (metadataBts, dataBts) =>
    match UnmarshalClientMessage json metadataBts.elems with
    | .panic p => .panic p
    | .error e => .error ("error unmarshalling metadata: " ++ e)
    | .ok clientMessage => .ok (clientMessage.WithPayload dataBts.elems)

/-! ## ws.go -/

/-- State of a `duplexChan`. `closed` is the atomic flag, `done` tells whether
`close(c.done)` has run, `send` lists the messages that the writer goroutine
has received from the unbuffered `send` channel, oldest first. -/
structure duplexChan where
  closed : Bool
  done : Bool
  send : List ServerMessage
  deriving Repr, DecidableEq

/-- The channel state built by `NewDuplexChan`. -/
def NewDuplexChan : duplexChan :=
  { closed := false, done := false, send := [] }

/-- What the other goroutines do while `Send` waits in its `select`: the
writer goroutine receives the message, or another goroutine closes the channel
first. -/
inductive SendEnv where
  | writerTakes
  | closedMeanwhile
  deriving Repr, DecidableEq

/-- The method `duplexChan.Send`: the new channel state and the returned
error. -/
def duplexChan.Send (c : duplexChan) (msg : ServerMessage) (env : SendEnv) :
    duplexChan × Option String :=
  if c.closed then (c, some "channel is closed and cannot send message")
  else
    match env with
    | .closedMeanwhile => ({ c with closed := true, done := true }, some "channel was closed")
    | .writerTakes => ({ c with send := c.send ++ [msg] }, none)

/-- The method `duplexChan.Close`: compare-and-swap on the flag, and
`close(c.done)` when the swap happened. Closing a closed Go channel panics. -/
def duplexChan.Close (c : duplexChan) : Outcome (duplexChan × Bool) :=
  if c.closed = false then
    if c.done then .panic "close of closed channel"
    else .ok ({ c with closed := true, done := true }, true)
  else .ok (c, false)

/-- Run `Close` `n` times in a row; the results of the calls, oldest first. -/
def duplexChan.closeTimes : Nat → duplexChan → Outcome (duplexChan × List Bool)
  | 0, c => .ok (c, [])
  | n + 1, c =>
    match c.Close with
    | .ok (c1, b) =>
      match duplexChan.closeTimes n c1 with
      | .ok (c2, bs) => .ok (c2, b :: bs)
      | .error e => .error e
      | .panic p => .panic p
    | .error e => .error e
    | .panic p => .panic p

/-! ## server.go: state -/

/-- A `sync.Map` with string keys. -/
abbrev SyncMap (V : Type) := String → Option V

/-- The method `sync.Map.Store`. -/
def SyncMap.Store {V : Type} (m : SyncMap V) (key : String) (value : V) : SyncMap V :=
  fun k => if k = key then some value else m k

/-- The method `sync.Map.Delete`. -/
def SyncMap.Delete {V : Type} (m : SyncMap V) (key : String) : SyncMap V :=
  fun k => if k = key then none else m k

/-- The method `sync.Map.CompareAndDelete`: delete the entry for `key` only if
its value equals `old`. -/
def SyncMap.CompareAndDelete {V : Type} [DecidableEq V] (m : SyncMap V) (key : String)
    (old : V) : SyncMap V :=
  if m key = some old then SyncMap.Delete m key else m

/-- An `http.Header`: header name to values. -/
abbrev Header := String → Option (List String)

/-- The method `http.Header.Set`: replace the values stored under the
normalised key. `canon` is the key normalisation of the library. -/
def Header.Set (canon : String → String) (h : Header) (key value : String) : Header :=
  fun k => if k = canon key then some [value] else h k

/-- The method `http.Header.Get`: the first value stored under the normalised
key, or the empty string. -/
def Header.Get (canon : String → String) (h : Header) (key : String) : String :=
  match h (canon key) with
  | some (v :: _) => v
  | _ => ""

/-- An `http.ResponseWriter`, as a recorder: the header map, the status codes
the handlers passed to `WriteHeader` in call order, the final status the
writer has sent (`sent`, none while the header is not written), the bytes
accepted by `Write`, and whether every `Write` fails (the HTTP client is
gone). -/
structure ResponseWriter where
  header : Header
  status : List Int
  sent : Option Int
  body : Bytes
  broken : Bool

/-- The method `ResponseWriter.WriteHeader`, as `net/http` documents it; `none`
is the panic `invalid WriteHeader code`. A call after the header is written is
superfluous: the writer ignores it (it is still recorded in `status`). Before
that a code outside 100..999 panics, a 1xx code other than 101 is sent as an
informational header and leaves the header unwritten, and any other code is
the final status. -/
def ResponseWriter.WriteHeader (w : ResponseWriter) (statusCode : Int) :
    Option ResponseWriter :=
  if w.sent.isSome then some { w with status := w.status ++ [statusCode] }
  else if statusCode < 100 ∨ 999 < statusCode then none
  else if 100 ≤ statusCode ∧ statusCode ≤ 199 ∧ statusCode ≠ 101 then
    some { w with status := w.status ++ [statusCode] }
  else some { w with status := w.status ++ [statusCode], sent := some statusCode }

/-- Library functions used by the handlers: the key normalisation of
`http.Header`, the UTF-8 bytes of a string, `http.Error`, and whether a
response writer in a given state takes the bytes of a `Write` (`net/http`
refuses a body for some statuses and beyond a declared `Content-Length`). -/
structure Lib where
  canon : String → String
  utf8 : String → Bytes
  httpError : ResponseWriter → String → Int → ResponseWriter
  accepts : ResponseWriter → Bytes → Bool

/-- The method `ResponseWriter.Write`: the writer afterwards, and whether the
returned error is nil. A `Write` before the header is written first writes
the header with status 200. -/
def ResponseWriter.Write (lib : Lib) (w : ResponseWriter) (p : Bytes) :
    ResponseWriter × Bool :=
  let w1 : ResponseWriter := if w.sent.isSome then w else { w with sent := some 200 }
  if w1.broken || !lib.accepts w1 p then (w1, false)
  else ({ w1 with body := w1.body ++ p }, true)

/-- Run `Write` for each chunk in turn, whatever it returns. -/
def ResponseWriter.writeAll (lib : Lib) (w : ResponseWriter) (chunks : List Bytes) :
    ResponseWriter :=
  chunks.foldl (fun w c => (w.Write lib c).1) w

/-- Whether `Write` returns a nil error for each chunk of the list, written in
turn. -/
def ResponseWriter.acceptsAll (lib : Lib) (w : ResponseWriter) : List Bytes → Bool
  | [] => true
  | c :: cs => (w.Write lib c).2 && ResponseWriter.acceptsAll lib (w.Write lib c).1 cs

/-- Where the goroutine started by `onRequest` (the one that drains
`respBodyChan` into the response writer) stands. -/
inductive DrainState where
  | notStarted
  | selecting
  | writing (chunk : Bytes)
  | exited
  deriving Repr, DecidableEq

/-- Where the goroutine running `onRequest` itself stands: still forwarding
the request, blocked in `responseEnd.Wait()`, returned, or panicked. -/
inductive HandlerState where
  | running
  | waiting
  | returned
  | panicked
  deriving Repr, DecidableEq

/-- The objects one call of `onRequest` works on: the response writer `w`,
the channel `respBodyChan` (unbuffered, so only open or closed), the request
context, and the two goroutines. -/
structure HttpTask where
  w : ResponseWriter
  chanClosed : Bool
  ctxDone : Bool
  drain : DrainState
  handler : HandlerState

/-- The struct `RequestObject`. Its fields `ResponseObject` and
`ResponseBodyChan` are references to the writer and the channel of one call of
`onRequest`; `task` is the index of that call's `HttpTask`. -/
structure RequestObject where
  ID : String
  task : Nat
  deriving Repr, DecidableEq

/-- The struct `ServerConnState`. `hosts` is the local slice of `onWSConnect`
that the closure `LinkHost` appends to. -/
structure ServerConnState where
  ClientID : String
  Ch : duplexChan
  OngoingRequests : SyncMap RequestObject
  hosts : List String

/-- The struct `Server` (its two maps) together with the objects the maps and
the goroutines point to: `serverStates` maps a client id to the index in
`conns` of the session state, `tasks` holds the per-request objects. -/
structure World where
  serverStates : SyncMap Nat
  hostToClientID : SyncMap String
  conns : List ServerConnState
  tasks : List HttpTask

/-- The function `New`: a server with empty maps. -/
def New : World :=
  { serverStates := fun _ => none, hostToClientID := fun _ => none, conns := [], tasks := [] }

/-- Replace the session state at pointer `p`. -/
def World.setConn (W : World) (p : Nat) (st : ServerConnState) : World :=
  { W with conns := W.conns.set p st }

/-- Replace the per-request objects at index `h`. -/
def World.setTask (W : World) (h : Nat) (t : HttpTask) : World :=
  { W with tasks := W.tasks.set h t }

/-! ## messages.go: the `Handle` methods -/

/-- How a call of `Handle` ends: it returns (nil or an error), it blocks in
`req.ResponseBodyChan <- s.Chunk` until a receiver takes the chunk (and then
returns nil), or it panics. -/
inductive HandleResult where
  | returned (W : World) (err : Option String)
  | sending (W : World) (task : Nat) (chunk : Bytes)
  | panicked (msg : String)

/-- The closure `LinkHost` built in `onWSConnect` for the session at `p`. -/
def LinkHost (W : World) (p : Nat) (host : String) : World :=
  match W.conns[p]? with
  | none => W
  | some st =>
    { W.setConn p { st with hosts := st.hosts ++ [host] } with
      hostToClientID := SyncMap.Store W.hostToClientID host st.ClientID }

/-- The method `RegisterMessage.Handle`. -/
def RegisterMessage.Handle (s : RegisterMessage) (W : World) (conn : Nat) (env : SendEnv) :
    HandleResult :=
  let W1 := LinkHost W conn s.Domain
  match W1.conns[conn]? with
  | none => .panicked "invalid memory address or nil pointer dereference"
  | some st =>
    let r := st.Ch.Send (.registered { type := "registered", Domain := s.Domain, ID := s.ID }) env
    .returned (W1.setConn conn { st with Ch := r.1 }) r.2

/-- The method `ResponseStartMessage.Handle`. `WriteHeader` panics on a status
code outside 100..999 while the header is not written yet; the calls of
`Header().Set` made before the panic are not kept, since a panicked `Handle`
leaves the machine in `Disp.panicked` for good. -/
def ResponseStartMessage.Handle (lib : Lib) (s : ResponseStartMessage) (W : World)
    (conn : Nat) : HandleResult :=
  match W.conns[conn]? with
  | none => .panicked "invalid memory address or nil pointer dereference"
  | some st =>
    match st.OngoingRequests s.ID with
    | none => .returned W (some ("no ongoing request found for id " ++ s.ID))
    | some req =>
      match W.tasks[req.task]? with
      | none => .panicked "invalid memory address or nil pointer dereference"
      | some t =>
        let h1 := s.Headers.foldl (fun h kv => Header.Set lib.canon h kv.1 kv.2) t.w.header
        let h2 := Header.Set lib.canon h1 "transfer-encoding" "chunked"
        match ({ t.w with header := h2 }).WriteHeader s.StatusCode with
        | none => .panicked "invalid WriteHeader code"
        | some w => .returned (W.setTask req.task { t with w := w }) none

/-- The method `DataMessage.Handle`. A send on a closed channel panics. -/
def DataMessage.Handle (s : DataMessage) (W : World) (conn : Nat) : HandleResult :=
  match W.conns[conn]? with
  | none => .panicked "invalid memory address or nil pointer dereference"
  | some st =>
    match st.OngoingRequests s.ID with
    | none => .returned W (some ("no ongoing request found for id " ++ s.ID))
    | some req =>
      match W.tasks[req.task]? with
      | none => .panicked "invalid memory address or nil pointer dereference"
      | some t =>
        if t.chanClosed then .panicked "send on closed channel"
        else .sending W req.task s.Chunk

/-- The method `DataEndMessage.Handle`. Closing a closed channel panics. -/
def DataEndMessage.Handle (s : DataEndMessage) (W : World) (conn : Nat) : HandleResult :=
  match W.conns[conn]? with
  | none => .panicked "invalid memory address or nil pointer dereference"
  | some st =>
    match st.OngoingRequests s.ID with
    | none => .returned W (some ("no ongoing request found for id " ++ s.ID))
    | some req =>
      match W.tasks[req.task]? with
      | none => .panicked "invalid memory address or nil pointer dereference"
      | some t =>
        if t.chanClosed then .panicked "close of closed channel"
        else .returned (W.setTask req.task { t with chanClosed := true }) none

/-- The method `Handle` of the interface `ClientMessage`. -/
def ClientMessage.Handle (lib : Lib) (m : ClientMessage) (W : World) (conn : Nat)
    (env : SendEnv) : HandleResult :=
  match m with
  | .register s => s.Handle W conn env
  | .responseStart s => s.Handle lib W conn
  | .data s => s.Handle W conn
  | .dataEnd s => s.Handle W conn
  | .wsOpened _ => .returned W none
  | .wsMessage _ => .returned W none
  | .wsClosed _ => .returned W none

/-! ## server.go: `onWSConnect` -/

/-- The start of `onWSConnect` after the upgrade: build the channel and the
session state for the fresh `clientID` and store it in `serverStates`. Returns
the pointer to the new state. -/
def onWSConnect_open (W : World) (clientID : String) : World × Nat :=
  let p := W.conns.length
  let state : ServerConnState :=
    { ClientID := clientID, Ch := NewDuplexChan, OngoingRequests := fun _ => none, hosts := [] }
  ({ W with conns := W.conns ++ [state], serverStates := SyncMap.Store W.serverStates clientID p },
   p)

/-- The deferred calls of `onWSConnect`, in the order in which they run:
`wg.Wait()` (nothing to wait for), the loop that compare-and-deletes every
host this session linked, `serverStates.Delete(clientID)`, `ch.Close()`.
Returns the state afterwards and the panic of `ch.Close()`, if any. -/
def onWSConnect_deferred (W : World) (p : Nat) : World × Option String :=
  match W.conns[p]? with
  | none => (W, some "invalid memory address or nil pointer dereference")
  | some st =>
    let hostToClientID :=
      st.hosts.foldl (fun m host => SyncMap.CompareAndDelete m host st.ClientID) W.hostToClientID
    let W1 : World :=
      { W with hostToClientID := hostToClientID,
               serverStates := SyncMap.Delete W.serverStates st.ClientID }
    match st.Ch.Close with
    | .ok (ch, _) => (W1.setConn p { st with Ch := ch }, none)
    | .error e => (W1, some e)
    | .panic e => (W1, some e)

/-! ## server.go: `onRequest` -/

/-- The error of one `Read` on a request body. -/
inductive ReadErr where
  | eof
  | other
  deriving Repr, DecidableEq

/-- The result of one `r.Body.Read(buf)`: the bytes copied to the front of
`buf` and the error. -/
structure ReadResult where
  data : Bytes
  err : Option ReadErr
  deriving Repr, DecidableEq

/-- The parts of an `*http.Request` that `onRequest` reads. `Header` lists the
entries of the header map, `Body` is nil (`none`) or the results of the
successive `Read` calls (after the last of them `Read` returns `0, io.EOF`),
`ctxDone` tells whether the request context is cancelled. -/
structure Request where
  Header : List (String × List String)
  Host : String
  Method : String
  Path : String
  RawQuery : String
  Body : Option (List ReadResult)
  ctxDone : Bool

/-- The call `r.Header.Get(key)`. -/
def Request.HeaderGet (canon : String → String) (r : Request) (key : String) : String :=
  match r.Header.find? (fun kv => kv.1 = canon key) with
  | some (_, v :: _) => v
  | _ => ""

/-- The function `headerToMap`. -/
def headerToMap (header : List (String × List String)) : List (String × String) :=
  header.map (fun kv => (kv.1, ",".intercalate kv.2))

/-- The body loop of `onRequest`. `buf` is the one buffer that every `Read`
fills from the front and that every `request-data` message carries whole;
`k` counts the `Send` calls made so far (`env k` is what happens during the
next one). Returns the channel afterwards, the number of `Send` calls, and
whether the loop ended by `break` (`true`) or by `return` (`false`). A message
is recorded with the contents the buffer has when it is sent. -/
def forwardBody (messageID : String) (env : Nat → SendEnv) :
    List ReadResult → Bytes → Nat → duplexChan → duplexChan × Nat × Bool
  | [], _, k, ch => (ch, k, true)
  | rd :: rest, buf, k, ch =>
    let buf1 := (rd.data ++ buf.drop rd.data.length).take buf.length
    match rd.err with
    | some .eof => (ch, k, true)
    | some .other => (ch, k, false)
    | none =>
      let r := ch.Send (.requestData { Chunk := buf1, ID := messageID, type := "request-data" })
        (env k)
      match r.2 with
      | some _ => (r.1, k + 1, false)
      | none => forwardBody messageID env rest buf1 (k + 1) r.1

/-- The method `Server.onRequest`, run for the request `r` with the response
writer `w`, up to the point where it returns or blocks in
`responseEnd.Wait()`. `messageID` is the value of `uuid.New().String()`, `env`
what happens during each `Send`. The writer and the objects created for the
request are put in a new `HttpTask`, whose index is returned. A nil `r.Body`
makes `defer r.Body.Close()` panic; a pointer in `serverStates` always refers
to a session state, the case `none` of that lookup stands for a nil
dereference. -/
def onRequest (lib : Lib) (W : World) (w : ResponseWriter) (r : Request) (messageID : String)
    (env : Nat → SendEnv) : World × Nat :=
  let h := W.tasks.length
  let rejected (w1 : ResponseWriter) (handler : HandlerState) : World × Nat :=
    ({ W with tasks := W.tasks ++ [{ w := w1, chanClosed := false, ctxDone := r.ctxDone,
                                     drain := .notStarted, handler := handler }] }, h)
  if r.HeaderGet lib.canon "upgrade" = "websocket" then
    rejected (lib.httpError w "Websocket not supported" 400) .returned
  else
    match W.hostToClientID r.Host with
    | none =>
      match w.WriteHeader 400 with
      | some w1 => rejected w1 .returned
      | none => rejected w .panicked
    | some clientID =>
      match W.serverStates clientID with
      | none =>
        match w.WriteHeader 400 with
        | some w1 => rejected w1 .returned
        | none => rejected w .panicked
      | some p =>
        match W.conns[p]? with
        | none => rejected w .panicked
        | some serverState =>
          let hasBody := r.Body.isSome
          let task : HttpTask :=
            { w := w, chanClosed := !hasBody, ctxDone := r.ctxDone,
              drain := .selecting, handler := .running }
          let ongoing := SyncMap.Store serverState.OngoingRequests messageID
            { ID := messageID, task := h }
          let s0 := serverState.Ch.Send
            (.requestStart { type := "request-start", Domain := r.Host, ID := messageID,
                             Method := r.Method, HasBody := hasBody,
                             URL := r.Path ++ r.RawQuery, Headers := headerToMap r.Header })
            (env 0)
          let finish (ch : duplexChan) (t : HttpTask) : World × Nat :=
            ({ W with
                conns := W.conns.set p { serverState with Ch := ch, OngoingRequests := ongoing },
                tasks := W.tasks ++ [t] }, h)
          match s0.2 with
          | some err =>
            finish s0.1 { task with w := (w.Write lib (lib.utf8 ("error " ++ err))).1,
                                    handler := .returned }
          | none =>
            match r.Body with
            | none => finish s0.1 { task with handler := .panicked }
            | some reads =>
              let b := forwardBody messageID env reads (List.replicate 1024 0) 1 s0.1
              if b.2.2 then
                let s1 := b.1.Send (.requestEnd { ID := messageID, type := "request-end" })
                  (env b.2.1)
                match s1.2 with
                | some _ => finish s1.1 { task with handler := .returned }
                | none => finish s1.1 { task with handler := .waiting }
              else finish b.1 { task with handler := .returned }

/-! ## The goroutines of one session, step by step -/

/-- Where the message loop of `onWSConnect` stands: between two messages,
blocked inside `DataMessage.Handle` on the channel send, or panicked. -/
inductive Disp where
  | idle
  | sending (task : Nat) (chunk : Bytes)
  | panicked (msg : String)
  deriving Repr, DecidableEq

/-- One session at work: the shared state, the pointer `conn` to the session
state, the messages still to come out of `recv` (`inbox`), the state of the
message loop, and the value every finished `Handle` call returned. -/
structure Machine where
  W : World
  conn : Nat
  inbox : List ClientMessage
  disp : Disp
  handled : List (Option String)

/-- The message loop takes the next message and calls `Handle`; when `Handle`
returns an error the loop deletes the message id from `OngoingRequests`. -/
def Machine.dispatch (lib : Lib) (env : SendEnv) (m : Machine) : Option Machine :=
  match m.disp, m.inbox with
  | .idle, message :: rest =>
    match message.Handle lib m.W m.conn env with
    | .returned W none =>
      some { m with W := W, inbox := rest, handled := m.handled ++ [none] }
    | .returned W (some err) =>
      let W1 := match W.conns[m.conn]? with
        | none => W
        | some st =>
          W.setConn m.conn
            { st with OngoingRequests := SyncMap.Delete st.OngoingRequests message.GetID }
      some { m with W := W1, inbox := rest, handled := m.handled ++ [some err] }
    | .sending W task chunk =>
      some { m with W := W, inbox := rest, disp := .sending task chunk }
    | .panicked msg => some { m with inbox := rest, disp := .panicked msg }
  | _, _ => none

/-- The drain goroutine of task `h` takes the case `<-r.Context().Done()` of
its `select` and returns. -/
def Machine.drainCancel (h : Nat) (m : Machine) : Option Machine :=
  match m.W.tasks[h]? with
  | some t =>
    if t.drain = .selecting ∧ t.ctxDone = true then
      some { m with W := m.W.setTask h { t with drain := .exited } }
    else none
  | none => none

/-- The drain goroutine of task `h` receives from the closed `respBodyChan`
(`ok` is false) and returns. -/
def Machine.drainClosed (h : Nat) (m : Machine) : Option Machine :=
  match m.W.tasks[h]? with
  | some t =>
    if t.drain = .selecting ∧ t.chanClosed = true then
      some { m with W := m.W.setTask h { t with drain := .exited } }
    else none
  | none => none

/-- The drain goroutine of task `h` receives the chunk that the message loop
is sending on `respBodyChan`; `DataMessage.Handle` returns nil. -/
def Machine.drainRecv (h : Nat) (m : Machine) : Option Machine :=
  match m.disp, m.W.tasks[h]? with
  | .sending task chunk, some t =>
    if task = h ∧ t.drain = .selecting ∧ t.chanClosed = false then
      some { m with W := m.W.setTask h { t with drain := .writing chunk },
                    disp := .idle, handled := m.handled ++ [none] }
    else none
  | _, _ => none

/-- The drain goroutine of task `h` runs `w.Write(chunk)`: it loops on
success and returns on error. -/
def Machine.drainWrite (lib : Lib) (h : Nat) (m : Machine) : Option Machine :=
  match m.W.tasks[h]? with
  | some t =>
    match t.drain with
    | .writing chunk =>
      let r := t.w.Write lib chunk
      some { m with
        W := m.W.setTask h { t with w := r.1, drain := if r.2 then .selecting else .exited } }
    | _ => none
  | none => none

/-- The call `responseEnd.Wait()` in `onRequest` of task `h` ends once the
drain goroutine has returned; `onRequest` then returns. -/
def Machine.handlerReturn (h : Nat) (m : Machine) : Option Machine :=
  match m.W.tasks[h]? with
  | some t =>
    if t.handler = .waiting ∧ t.drain = .exited then
      some { m with W := m.W.setTask h { t with handler := .returned } }
    else none
  | none => none

/-- One step of one goroutine. -/
inductive Step (lib : Lib) : Machine → Machine → Prop where
  | dispatch (env : SendEnv) {m m1 : Machine} :
      m.dispatch lib env = some m1 → Step lib m m1
  | drainCancel (h : Nat) {m m1 : Machine} : m.drainCancel h = some m1 → Step lib m m1
  | drainClosed (h : Nat) {m m1 : Machine} : m.drainClosed h = some m1 → Step lib m m1
  | drainRecv (h : Nat) {m m1 : Machine} : m.drainRecv h = some m1 → Step lib m m1
  | drainWrite (h : Nat) {m m1 : Machine} : m.drainWrite lib h = some m1 → Step lib m m1
  | handlerReturn (h : Nat) {m m1 : Machine} : m.handlerReturn h = some m1 → Step lib m m1

/-- A run of `n` steps. -/
inductive Run (lib : Lib) : Nat → Machine → Machine → Prop where
  | refl (m : Machine) : Run lib 0 m m
  | step {n : Nat} {m m1 m2 : Machine} : Step lib m m1 → Run lib n m1 m2 → Run lib (n + 1) m m2

/-- No goroutine of the machine can take a step. -/
def Machine.Stuck (lib : Lib) (m : Machine) : Prop := ∀ m1, ¬ Step lib m m1

/-! ## Measures and invariants used in the proofs -/

/-- How many more steps the two goroutines of a task can take on their own:
the drain goroutine may still leave its `select` (1) or still has a chunk to
write first (2), and `onRequest` may still return from `Wait` (1). -/
def HttpTask.weight (t : HttpTask) : Nat :=
  (match t.drain with
    | .notStarted => 0
    | .selecting => 1
    | .writing _ => 2
    | .exited => 0) +
  (match t.handler with
    | .waiting => 1
    | _ => 0)

/-- A bound on the number of steps the machine can still take. -/
def Machine.weight (m : Machine) : Nat :=
  3 * m.inbox.length +
  (match m.disp with
    | .sending _ _ => 2
    | _ => 0) +
  (m.W.tasks.map HttpTask.weight).sum

/-- The response writer as `ResponseStartMessage.Handle` leaves it: every
header of the message set, `transfer-encoding` set to `chunked`, the status
code written; `none` when `WriteHeader` panics. -/
def ResponseStartMessage.writeHead (lib : Lib) (s : ResponseStartMessage)
    (w : ResponseWriter) : Option ResponseWriter :=
  ({ w with
      header := Header.Set lib.canon
        (s.Headers.foldl (fun (h : Header) (kv : String × String) =>
          Header.Set lib.canon h kv.1 kv.2) w.header)
        "transfer-encoding" "chunked" }).WriteHeader s.StatusCode

/-- The messages of one streamed response, in wire order. -/
def responseScript (rs : ResponseStartMessage) (ds : List DataMessage) (de : DataEndMessage) :
    List ClientMessage :=
  .responseStart rs :: (ds.map .data ++ [.dataEnd de])

/-- The states a session passes through while the script of one streamed
response is dispatched to the task `h` whose HTTP client stays connected.
Before `response-start` the writer is `w0` and nothing has changed. Afterwards
(`wh` is the writer as `response-start` left it) the data messages split into
those dispatched (`sent`) and those still in the inbox (`todo`); the chunks of
`sent` are, in order, those written to the response (`written`), the one the
drain goroutine is writing (`dw`) and the one the message loop is sending
(`dsp`); the writer accepts the chunks not yet written; once `data-end` is
dispatched the channel is closed and the inbox is empty. -/
def Streaming (lib : Lib) (conn0 : Nat) (conns0 : List ServerConnState) (h : Nat)
    (w0 wh : ResponseWriter) (hd0 : List (Option String)) (rs : ResponseStartMessage)
    (ds : List DataMessage) (de : DataEndMessage) (m : Machine) : Prop :=
  m.conn = conn0 ∧ m.W.conns = conns0 ∧
  ∃ t, m.W.tasks[h]? = some t ∧ t.ctxDone = false ∧
    ((m.inbox = responseScript rs ds de ∧ m.disp = .idle ∧ m.handled = hd0 ∧
        t.w = w0 ∧ t.drain = .selecting ∧ t.chanClosed = false) ∨
     (∃ (sent todo : List DataMessage) (written : List Bytes) (dw dsp : Option Bytes),
        ds = sent ++ todo ∧
        sent.map (fun d => d.Chunk) = written ++ dw.toList ++ dsp.toList ∧
        t.w = wh.writeAll lib written ∧
        (wh.writeAll lib written).acceptsAll lib
          (dw.toList ++ dsp.toList ++ todo.map (fun d => d.Chunk)) = true ∧
        m.disp = (match dsp with
          | some c => .sending h c
          | none => .idle) ∧
        m.handled = hd0 ++ List.replicate
          (1 + written.length + dw.toList.length + (if t.chanClosed then 1 else 0)) none ∧
        m.inbox = (if t.chanClosed then [] else todo.map .data ++ [.dataEnd de]) ∧
        (t.chanClosed = true → dsp = none ∧ todo = []) ∧
        (match t.drain with
          | .selecting => dw = none
          | .writing c => dw = some c
          | .exited => dw = none ∧ t.chanClosed = true
          | .notStarted => False)))

/-! ## Concrete objects for the examples -/

/-- The bytes allowed in a header name (`validHeaderFieldByte` of Go's
`net/textproto`): letters, digits and the punctuation of an RFC 7230 token,
given here by character code. -/
def validHeaderFieldByte (c : Char) : Bool :=
  c.isAlphanum ||
    [33, 35, 36, 37, 38, 39, 42, 43, 45, 46, 94, 95, 96, 124, 126].contains c.toNat

/-- Upper-case the first letter and every letter after a hyphen, lower-case
the others. -/
def canonicalLetters : Bool → List Char → List Char
  | _, [] => []
  | upper, c :: cs =>
    (if upper then c.toUpper else c.toLower) :: canonicalLetters (c == '-') cs

/-- The key normalisation of `http.Header` as Go's library documents it
(`textproto.CanonicalMIMEHeaderKey`): a key made of header-name bytes is put
in canonical letter case, any other key is left as it is. -/
def CanonicalMIMEHeaderKey (s : String) : String :=
  if s.toList.all validHeaderFieldByte then String.mk (canonicalLetters true s.toList) else s

/-- The statuses for which `net/http` takes a response body
(`bodyAllowedForStatus`): all but 1xx, 204 and 304. -/
def bodyAllowedForStatus (status : Int) : Bool :=
  !(decide (100 ≤ status) && decide (status ≤ 199)) && status != 204 && status != 304

/-- A library for concrete runs: header keys are normalised as Go does, the
bytes of a string are its character codes (right for ASCII), `http.Error`
writes the status code, and a writer takes empty writes and, when its final
status allows a body, all others. -/
def exampleLib : Lib :=
  { canon := CanonicalMIMEHeaderKey
    utf8 := fun s => s.toList.map (fun c => Fin.ofNat c.toNat)
    httpError := fun w _ code => (w.WriteHeader code).getD w
    accepts := fun w p => p.isEmpty || bodyAllowedForStatus (w.sent.getD 200) }

/-- A decoder for concrete runs that finds the type name `t` and the id `r1`
in every metadata, and decodes `register` messages only. -/
def exampleJson (t : String) : JsonUnmarshal :=
  { msgType := fun _ => .ok t
    register := fun _ => .ok { ID := "r1", type := t, APIKey := "", Domain := "acme.test" }
    responseStart := fun _ => .error "json: cannot unmarshal"
    data := fun _ => .error "json: cannot unmarshal"
    dataEnd := fun _ => .error "json: cannot unmarshal"
    wsOpened := fun _ => .error "json: cannot unmarshal"
    wsMessage := fun _ => .error "json: cannot unmarshal"
    wsClosed := fun _ => .error "json: cannot unmarshal" }

/-- A response writer on which nothing has been written yet. -/
def freshWriter : ResponseWriter :=
  { header := fun _ => none, status := [], sent := none, body := [], broken := false }

/-- A server with one agent session (client id `c1`, session pointer 0) that
has linked the host `acme.test`. -/
def exampleServer : World :=
  LinkHost (onWSConnect_open New "c1").1 0 "acme.test"

/-- The request `GET /foo` for `acme.test` with an empty body; `ctxDone` tells
whether the HTTP client has gone away. -/
def exampleRequest (ctxDone : Bool) : Request :=
  { Header := [], Host := "acme.test", Method := "GET", Path := "/foo", RawQuery := "",
    Body := some [], ctxDone := ctxDone }

/-- The example server after `onRequest` has admitted the example request under
the message id `m` and sent `request-start` and `request-end`: task 0 is that
request, `onRequest` waits for the drain goroutine. -/
def exampleWorld (ctxDone : Bool) : World :=
  (onRequest exampleLib exampleServer freshWriter (exampleRequest ctxDone) "m"
    (fun _ => .writerTakes)).1

/-- The response of scenario 3: status 200, one header, the chunks `hel` and
`lo`. -/
def exampleScript : List ClientMessage :=
  responseScript
    { type := "response-start", ID := "m", StatusCode := 200, StatusMessage := "OK",
      Headers := [("content-type", "text/plain")] }
    [{ type := "data", ID := "m", Chunk := [104, 101, 108] },
     { type := "data", ID := "m", Chunk := [108, 111] }]
    { type := "data-end", ID := "m", Error := none }

/-- The chunks of the `request-data` messages of a send queue, oldest first. -/
def requestDataChunks : List ServerMessage → List Bytes
  | [] => []
  | .requestData c :: rest => c.Chunk :: requestDataChunks rest
  | _ :: rest => requestDataChunks rest

/-- The request `POST /foo` for `acme.test` whose body is delivered by the
given reads. -/
def examplePost (reads : List ReadResult) : Request :=
  { Header := [], Host := "acme.test", Method := "POST", Path := "/foo", RawQuery := "",
    Body := some reads, ctxDone := false }

/-- The send queue of session 0 of the example server after `onRequest` has
run for `examplePost reads` with every `Send` accepted by the writer. -/
def examplePostQueue (reads : List ReadResult) : List ServerMessage :=
  match (onRequest exampleLib exampleServer freshWriter (examplePost reads) "m"
      (fun _ => .writerTakes)).1.conns[0]? with
  | some st => st.Ch.send
  | none => []

/-- The session of the example world with the given messages in its inbox. -/
def exampleMachine (ctxDone : Bool) (inbox : List ClientMessage) : Machine :=
  { W := exampleWorld ctxDone, conn := 0, inbox := inbox, disp := .idle, handled := [] }

/-! ## The framed codec: lemmas -/

theorem Uint32_PutUint32 (n : Nat) (h : n < 2 ^ 32) (rest : Bytes) :
    Uint32 (PutUint32 n ++ rest) = some n := by
  simp only [PutUint32, Uint32, List.cons_append, List.nil_append, Fin.ofNat, Fin.val_mk]
  congr 1
  omega

theorem PutUint32_Uint32 (b0 b1 b2 b3 : Byte) :
    PutUint32 (b0.val + 256 * b1.val + 65536 * b2.val + 16777216 * b3.val) = [b0, b1, b2, b3] := by
  have h0 := b0.isLt
  have h1 := b1.isLt
  have h2 := b2.isLt
  have h3 := b3.isLt
  simp only [PutUint32, Fin.ofNat]
  congr 1
  · apply Fin.ext; simp only []; omega
  congr 1
  · apply Fin.ext; simp only []; omega
  congr 1
  · apply Fin.ext; simp only []; omega
  congr 1
  · apply Fin.ext; simp only []; omega

theorem Uint32_lt (b : Bytes) (L : Nat) (h : Uint32 b = some L) : L < 2 ^ 32 := by
  match b, h with
  | b0 :: b1 :: b2 :: b3 :: _, h =>
    simp only [Uint32, Option.some.injEq] at h
    have h0 := b0.isLt
    have h1 := b1.isLt
    have h2 := b2.isLt
    have h3 := b3.isLt
    omega

theorem Uint32_length (b : Bytes) (L : Nat) (h : Uint32 b = some L) : 4 ≤ b.length := by
  match b, h with
  | _ :: _ :: _ :: _ :: _, _ => simp

theorem Uint32_take (b : Bytes) : Uint32 (b.take 4) = Uint32 b := by
  match b with
  | [] => rfl
  | [_] => rfl
  | [_, _] => rfl
  | [_, _, _] => rfl
  | _ :: _ :: _ :: _ :: _ => rfl

theorem PutUint32_take (b : Bytes) (L : Nat) (h : Uint32 b = some L) :
    PutUint32 L = b.take 4 := by
  match b, h with
  | b0 :: b1 :: b2 :: b3 :: _, h =>
    simp only [Uint32, Option.some.injEq] at h
    subst h
    simp [PutUint32_Uint32]

/-- Exact behaviour of `parseMessage` on a frame that fits its length prefix. -/
theorem parseMessage_ok (F spare : Bytes) (L : Nat) (hL : Uint32 F = some L)
    (hw : 4 + L < 2 ^ 32) (hfit : 4 + L ≤ F.length) :
    parseMessage ⟨F, spare⟩
      = .ok (⟨(F.drop 4).take L, (F ++ spare).drop (4 + L)⟩, ⟨F.drop (4 + L), spare⟩) := by
  have h4 : 4 ≤ F.length := Uint32_length F L hL
  have hhdr : (F ++ spare).take 4 = F.take 4 := by
    rw [List.take_append_of_le_length h4]
  have hmod : (4 + L) % 2 ^ 32 = 4 + L := Nat.mod_eq_of_lt hw
  have hmeta : ((F ++ spare).drop 4).take L = (F.drop 4).take L := by
    rw [List.drop_append_of_le_length h4, List.take_append_of_le_length]
    simp only [List.length_drop]; omega
  have s1 : (Slice.mk F spare).slice 0 4 = some ⟨F.take 4, (F ++ spare).drop 4⟩ := by
    simp only [Slice.slice, Slice.cap, List.drop_zero, hhdr]
    rw [if_pos ⟨by omega, by omega⟩]
  have s2 : (Slice.mk F spare).slice 4 (4 + L)
      = some ⟨(F.drop 4).take L, (F ++ spare).drop (4 + L)⟩ := by
    simp only [Slice.slice, Slice.cap, Nat.add_sub_cancel_left, hmeta]
    rw [if_pos ⟨by omega, by omega⟩]
  have s3 : (Slice.mk F spare).sliceFrom (4 + L) = some ⟨F.drop (4 + L), spare⟩ := by
    simp only [Slice.sliceFrom, Slice.len]
    rw [if_pos hfit]
  simp only [parseMessage, s1, Uint32_take, hL, hmod, s2, s3]

/-- The function `parseMessage` panics on every frame that does not fit its length
prefix, whatever the capacity of the slice. -/
theorem parseMessage_panic (F spare : Bytes)
    (h : F.length < 4 ∨ ∃ L, Uint32 F = some L ∧ F.length < 4 + L) :
    ∃ msg, parseMessage ⟨F, spare⟩ = .panic msg := by
  unfold parseMessage
  cases h1 : (Slice.mk F spare).slice 0 4 with
  | none => exact ⟨_, rfl⟩
  | some hdr =>
    simp only []
    cases h2 : Uint32 hdr.elems with
    | none => exact ⟨_, rfl⟩
    | some M =>
      simp only []
      cases h3 : (Slice.mk F spare).slice 4 ((4 + M) % 2 ^ 32) with
      | none => exact ⟨_, rfl⟩
      | some mb =>
        simp only []
        cases h4 : (Slice.mk F spare).sliceFrom ((4 + M) % 2 ^ 32) with
        | none => exact ⟨_, rfl⟩
        | some pb =>
          exfalso
          simp only [Slice.slice, Slice.cap] at h1 h3
          simp only [Slice.sliceFrom, Slice.len] at h4
          split at h3
          · rename_i c3
            split at h4
            · rename_i c4
              have hlen : 4 ≤ F.length := by omega
              split at h1
              · simp only [List.drop_zero, Option.some.injEq] at h1
                subst h1
                simp only [] at h2
                rw [List.take_append_of_le_length hlen, Uint32_take] at h2
                have hM := Uint32_lt F M h2
                rcases h with h | ⟨L, hL, hlt⟩
                · omega
                · rw [h2] at hL
                  simp only [Option.some.injEq] at hL
                  subst hL
                  have : (4 + M) % 2 ^ 32 = 4 + M ∨ (4 + M) % 2 ^ 32 < 4 := by omega
                  omega
              · simp at h1
            · simp at h4
          · simp at h3

/-- The function `parseMessage` never returns a non-nil error. -/
theorem parseMessage_no_error (data : Slice) (e : String) : parseMessage data ≠ .error e := by
  unfold parseMessage
  repeat' split
  all_goals simp

/-- The function `parseMessage` panics when `4 + metadataLength` wraps around in
`uint32`: the upper bound of `data[4 : 4+metadataLength]` is then below 4. -/
theorem parseMessage_wrap (F spare : Bytes) (L : Nat) (hL : Uint32 F = some L)
    (hw : 2 ^ 32 ≤ 4 + L) :
    parseMessage ⟨F, spare⟩ = .panic "slice bounds out of range" := by
  have h4 : 4 ≤ F.length := Uint32_length F L hL
  have hlt := Uint32_lt F L hL
  have s1 : (Slice.mk F spare).slice 0 4 = some ⟨F.take 4, (F ++ spare).drop 4⟩ := by
    simp only [Slice.slice, Slice.cap, List.drop_zero, List.take_append_of_le_length h4]
    rw [if_pos ⟨by omega, by omega⟩]
  have s2 : (Slice.mk F spare).slice 4 ((4 + L) % 2 ^ 32) = none := by
    simp only [Slice.slice]
    rw [if_neg]
    omega
  simp only [parseMessage, s1, Uint32_take, hL, s2]

/-- What `createMessage` returns once `json.Marshal` has succeeded. -/
theorem createMessage_ok {α : Type} (marshal : α → Except String Bytes) (m : α) (j p : Bytes)
    (hj : marshal m = .ok j) :
    createMessage marshal m p = .ok (PutUint32 (j.length % 2 ^ 32) ++ j ++ p) := by
  simp only [createMessage, hj]

theorem PutUint32_length (v : Nat) : (PutUint32 v).length = 4 := rfl

/-- The three parts of a frame whose first part has four elements. -/
theorem frame_parts {α : Type} (hdr j p : List α) (h4 : hdr.length = 4) :
    (hdr ++ j ++ p).take 4 = hdr ∧
    ((hdr ++ j ++ p).drop 4).take j.length = j ∧
    (hdr ++ j ++ p).drop (4 + j.length) = p := by
  refine ⟨?_, ?_, ?_⟩
  · rw [List.append_assoc, ← h4, List.take_left']
    rfl
  · rw [List.append_assoc, ← h4, List.drop_left', List.take_left']
    rfl
    rfl
  · rw [← h4, ← List.length_append, List.drop_left']
    rfl

/-! ## The framed codec: claims -/

/-- C1 (as amended). Round trip of the framed codec. For every metadata value
whose JSON encoding `j` satisfies `4 + len(j) < 2^32` and every payload `p`,
`parseMessage(createMessage(m, p))` succeeds and returns exactly `(j, p)`,
whatever the capacity of the frame; conversely, for every frame `F` whose length
prefix `L` satisfies `4 + L < 2^32` and `4 + L ≤ len(F)`, `parseMessage(F)`
succeeds and the 4-byte little-endian `L`, the returned metadata and the
returned payload concatenate to `F`. -/
theorem codec_round_trip :
    (∀ (α : Type) (marshal : α → Except String Bytes) (m : α) (j p spare : Bytes),
        marshal m = .ok j → 4 + j.length < 2 ^ 32 →
        ∃ F mb pb, createMessage marshal m p = .ok F ∧
          parseMessage ⟨F, spare⟩ = .ok (mb, pb) ∧ mb.elems = j ∧ pb.elems = p) ∧
    (∀ (F spare : Bytes) (L : Nat),
        4 ≤ F.length → Uint32 F = some L → 4 + L < 2 ^ 32 → 4 + L ≤ F.length →
        ∃ mb pb, parseMessage ⟨F, spare⟩ = .ok (mb, pb) ∧
          PutUint32 L ++ mb.elems ++ pb.elems = F) := by
  constructor
  · intro α marshal m j p spare hj hlen
    have hmod : j.length % 2 ^ 32 = j.length := Nat.mod_eq_of_lt (by omega)
    have hU : Uint32 (PutUint32 j.length ++ j ++ p) = some j.length := by
      rw [List.append_assoc]
      exact Uint32_PutUint32 _ (by omega) _
    refine ⟨_, _, _, ?_, parseMessage_ok _ spare j.length hU hlen ?_, ?_, ?_⟩
    · rw [createMessage_ok marshal m j p hj, hmod]
    · simp only [List.length_append, PutUint32_length]; omega
    · exact (frame_parts _ j p (PutUint32_length _)).2.1
    · exact (frame_parts _ j p (PutUint32_length _)).2.2
  · intro F spare L _ hL hw hfit
    refine ⟨_, _, parseMessage_ok F spare L hL hw hfit, ?_⟩
    simp only []
    rw [PutUint32_take F L hL, List.append_assoc, ← List.drop_drop,
      List.take_append_drop, List.take_append_drop]

/-- Witness for `codec_round_trip`: a 2-byte metadata `{}` with payload
`00 FF 10`, and the frame `02 00 00 00 7B 7D 09`. -/
theorem codec_round_trip_witness :
    (∃ F mb pb, createMessage (fun _ : Unit => Except.ok [123, 125]) () [0, 255, 16] = .ok F ∧
        parseMessage ⟨F, []⟩ = .ok (mb, pb) ∧ mb.elems = [123, 125] ∧ pb.elems = [0, 255, 16]) ∧
    (∃ mb pb, parseMessage ⟨[2, 0, 0, 0, 123, 125, 9], []⟩ = .ok (mb, pb) ∧
        PutUint32 2 ++ mb.elems ++ pb.elems = [2, 0, 0, 0, 123, 125, 9]) :=
  ⟨codec_round_trip.1 Unit (fun _ => Except.ok [123, 125]) () [123, 125] [0, 255, 16] [] rfl
      (by decide),
   codec_round_trip.2 [2, 0, 0, 0, 123, 125, 9] [] 2 (by decide) (by decide) (by decide)
      (by decide)⟩

/-- C1 as stated fails. A JSON encoding of `2^32 - 4` bytes is shorter than
`2^32` bytes, `createMessage` frames it (with an empty payload), and
`parseMessage` panics on that frame: `4 + metadataLength` wraps to 0 in
`uint32`, so `data[4:0]` is out of range. -/
theorem codec_round_trip_fails_at_u32_limit :
    (List.replicate 4294967292 (0 : Byte)).length < 2 ^ 32 ∧
    createMessage (fun _ : Unit => Except.ok (List.replicate 4294967292 (0 : Byte))) () []
      = .ok (PutUint32 4294967292 ++ List.replicate 4294967292 (0 : Byte) ++ []) ∧
    parseMessage ⟨PutUint32 4294967292 ++ List.replicate 4294967292 (0 : Byte) ++ [], []⟩
      = .panic "slice bounds out of range" := by
  refine ⟨?_, ?_, ?_⟩
  · rw [List.length_replicate]; norm_num
  · rw [createMessage_ok _ () (List.replicate 4294967292 (0 : Byte)) [] rfl,
      List.length_replicate]
    norm_num
  · apply parseMessage_wrap _ _ 4294967292
    · rw [List.append_assoc]
      exact Uint32_PutUint32 _ (by norm_num) _
    · norm_num

/-- C2. Wire layout of Encode. For every metadata value whose JSON encoding `j`
has length `n < 2^32` and every payload `p`, `createMessage` returns a frame of
length `4 + n + len(p)` whose bytes `[0:4]` are `n` as a little-endian `uint32`,
whose bytes `[4:4+n]` are `j` and whose bytes `[4+n:]` are `p` unchanged. -/
theorem createMessage_layout (α : Type) (marshal : α → Except String Bytes) (m : α)
    (j p : Bytes) (hj : marshal m = .ok j) (hn : j.length < 2 ^ 32) :
    ∃ F, createMessage marshal m p = .ok F ∧
      F.length = 4 + j.length + p.length ∧
      F.take 4 = PutUint32 j.length ∧ Uint32 (F.take 4) = some j.length ∧
      (F.drop 4).take j.length = j ∧
      F.drop (4 + j.length) = p := by
  have hmod : j.length % 2 ^ 32 = j.length := Nat.mod_eq_of_lt hn
  refine ⟨_, createMessage_ok marshal m j p hj, ?_, ?_, ?_, ?_, ?_⟩
  · simp only [List.length_append, PutUint32_length]
  · rw [hmod]
    exact (frame_parts _ j p (PutUint32_length _)).1
  · rw [hmod, Uint32_take, List.append_assoc]
    exact Uint32_PutUint32 _ hn _
  · rw [hmod]
    exact (frame_parts _ j p (PutUint32_length _)).2.1
  · rw [hmod]
    exact (frame_parts _ j p (PutUint32_length _)).2.2

/-- Witness for `createMessage_layout`: the metadata `{"type":"data","id":"x"}`
(24 bytes) with payload `00 FF 10` gives bytes `[0:4] = 18 00 00 00` and bytes
`[28:] = 00 FF 10`. -/
theorem createMessage_layout_witness :
    ∃ F, createMessage
        (fun _ : RequestDataMessage => Except.ok
          [123, 34, 116, 121, 112, 101, 34, 58, 34, 100, 97, 116, 97, 34, 44,
           34, 105, 100, 34, 58, 34, 120, 34, 125])
        { type := "data", ID := "x", Chunk := [0, 255, 16] } [0, 255, 16] = .ok F ∧
      F.length = 4 + 24 + 3 ∧
      F.take 4 = [24, 0, 0, 0] ∧ Uint32 (F.take 4) = some 24 ∧
      (F.drop 4).take 24 =
        [123, 34, 116, 121, 112, 101, 34, 58, 34, 100, 97, 116, 97, 34, 44,
         34, 105, 100, 34, 58, 34, 120, 34, 125] ∧
      F.drop 28 = [0, 255, 16] :=
  createMessage_layout RequestDataMessage
    (fun _ => Except.ok
      [123, 34, 116, 121, 112, 101, 34, 58, 34, 100, 97, 116, 97, 34, 44,
       34, 105, 100, 34, 58, 34, 120, 34, 125])
    { type := "data", ID := "x", Chunk := [0, 255, 16] }
    [123, 34, 116, 121, 112, 101, 34, 58, 34, 100, 97, 116, 97, 34, 44,
     34, 105, 100, 34, 58, 34, 120, 34, 125]
    [0, 255, 16] rfl (by decide)

/-- C3 fails on the code. The frame `05 00 00 00 7B` announces 5 bytes of
metadata and carries 1: `parseMessage`, and with it
`messageSerializer.Deserialize`, panics instead of returning an error; the same
holds for the 2-byte frame `01 02`. -/
theorem parseMessage_malformed_frame_panics :
    parseMessage ⟨[5, 0, 0, 0, 123], []⟩ = .panic "slice bounds out of range" ∧
    parseMessage ⟨[1, 2], []⟩ = .panic "slice bounds out of range" ∧
    ∀ json : JsonUnmarshal,
      messageSerializer.Deserialize json ⟨[5, 0, 0, 0, 123], []⟩
        = .panic "slice bounds out of range" := by
  have h1 : parseMessage ⟨[5, 0, 0, 0, 123], []⟩ = .panic "slice bounds out of range" := by
    decide
  refine ⟨h1, by decide, ?_⟩
  intro json
  simp only [messageSerializer.Deserialize, h1]

/-! ## The duplex channel: claims -/

/-- Calls of `Close` on a channel whose flag is set return false and leave the
channel as it is. -/
theorem closeTimes_closed (n : Nat) (d : Bool) (sent : List ServerMessage) :
    duplexChan.closeTimes n { closed := true, done := d, send := sent }
      = .ok ({ closed := true, done := d, send := sent }, List.replicate n false) := by
  induction n with
  | zero => rfl
  | succ k ih =>
    simp [duplexChan.closeTimes, duplexChan.Close, ih, List.replicate_succ]

/-- C7. Close is single-shot and idempotent. On a channel that has not been
closed (whatever was sent on it before; nothing for a fresh channel), the first
of `n + 1` calls of `Close` returns true, sets the flag and closes `done`;
every later call returns false; no call panics, so `done` is closed once; and
the state after `n + 1` calls is the state after one. A call on a channel whose
flag is set returns false and changes nothing. -/
theorem Close_single_shot :
    NewDuplexChan.Close = .ok ({ closed := true, done := true, send := [] }, true) ∧
    (∀ (sent : List ServerMessage) (n : Nat),
      duplexChan.closeTimes (n + 1) { closed := false, done := false, send := sent }
        = .ok ({ closed := true, done := true, send := sent },
               true :: List.replicate n false)) ∧
    (∀ (sent : List ServerMessage) (n : Nat),
      (duplexChan.closeTimes (n + 1)
          { closed := false, done := false, send := sent }).value?.map Prod.fst
        = (duplexChan.closeTimes 1
          { closed := false, done := false, send := sent }).value?.map Prod.fst) ∧
    (∀ (d : Bool) (sent : List ServerMessage),
      duplexChan.Close { closed := true, done := d, send := sent }
        = .ok ({ closed := true, done := d, send := sent }, false)) := by
  have key : ∀ (sent : List ServerMessage) (n : Nat),
      duplexChan.closeTimes (n + 1) { closed := false, done := false, send := sent }
        = .ok ({ closed := true, done := true, send := sent },
               true :: List.replicate n false) := by
    intro sent n
    simp [duplexChan.closeTimes, duplexChan.Close, closeTimes_closed]
  refine ⟨rfl, key, ?_, ?_⟩
  · intro sent n
    rw [key sent n, key sent 0]
    rfl
  · intro d sent
    rfl

/-- C8. Send on a closed channel fails. On every channel on which `Close` has
returned, `Send` returns an error and leaves the channel, its send queue
included, as it is; on a channel whose flag is not set and whose writer
goroutine receives the message, `Send` returns nil and the message is the last
of the send queue. -/
theorem Send_closed_fails :
    (∀ (c c1 : duplexChan) (b : Bool) (msg : ServerMessage) (env : SendEnv),
      c.Close = .ok (c1, b) →
      c1.Send msg env = (c1, some "channel is closed and cannot send message")) ∧
    (∀ (c : duplexChan) (msg : ServerMessage),
      c.closed = false →
      c.Send msg .writerTakes = ({ c with send := c.send ++ [msg] }, none)) := by
  constructor
  · intro c c1 b msg env h
    have hc : c1.closed = true := by
      unfold duplexChan.Close at h
      split at h
      · split at h
        · simp at h
        · simp only [Outcome.ok.injEq, Prod.mk.injEq] at h
          rw [← h.1]
      · rename_i hcl
        simp only [Outcome.ok.injEq, Prod.mk.injEq] at h
        rw [← h.1]
        simpa using hcl
    simp only [duplexChan.Send, hc, if_true]
  · intro c msg h
    simp only [duplexChan.Send, h]
    rfl

/-- Witness for `Send_closed_fails`: a fresh channel, closed, refuses a
`registered` message; a fresh channel that is not closed accepts it. -/
theorem Send_closed_fails_witness :
    duplexChan.Send { closed := true, done := true, send := [] }
        (.registered { type := "registered", ID := "r1", Domain := "acme.test" }) .writerTakes
      = ({ closed := true, done := true, send := [] },
         some "channel is closed and cannot send message") ∧
    NewDuplexChan.Send
        (.registered { type := "registered", ID := "r1", Domain := "acme.test" }) .writerTakes
      = ({ NewDuplexChan with
            send := NewDuplexChan.send ++
              [.registered { type := "registered", ID := "r1", Domain := "acme.test" }] },
         none) :=
  ⟨Send_closed_fails.1 NewDuplexChan _ true _ _ rfl, Send_closed_fails.2 NewDuplexChan _ rfl⟩

/-! ## The message grammar: claims -/

/-- C9. Type-discriminated parsing. Let `t` be the `type` that `json.Unmarshal`
peeks from the metadata (the empty string when the field is absent). If `t` is
none of the seven known type names, `UnmarshalClientMessage` fails with the
error `unknown message type: t`; if `t` is one of the seven and the metadata
decodes into the struct of that type, it returns that struct as the variant of
that type, and `GetID` of the result is the decoded `id`. -/
theorem UnmarshalClientMessage_by_type (json : JsonUnmarshal) (data : Bytes) :
    (∀ t, json.msgType data = .ok t →
      t ∉ ["register", "response-start", "data", "data-end", "ws-opened", "ws-message",
           "ws-closed"] →
      UnmarshalClientMessage json data = .error ("unknown message type: " ++ t)) ∧
    (json.msgType data = .ok "" →
      UnmarshalClientMessage json data = .error "unknown message type: ") ∧
    (∀ msg, json.msgType data = .ok "register" → json.register data = .ok msg →
      UnmarshalClientMessage json data = .ok (.register msg) ∧
      (ClientMessage.register msg).GetID = msg.ID) ∧
    (∀ msg, json.msgType data = .ok "response-start" → json.responseStart data = .ok msg →
      UnmarshalClientMessage json data = .ok (.responseStart msg) ∧
      (ClientMessage.responseStart msg).GetID = msg.ID) ∧
    (∀ msg, json.msgType data = .ok "data" → json.data data = .ok msg →
      UnmarshalClientMessage json data = .ok (.data msg) ∧
      (ClientMessage.data msg).GetID = msg.ID) ∧
    (∀ msg, json.msgType data = .ok "data-end" → json.dataEnd data = .ok msg →
      UnmarshalClientMessage json data = .ok (.dataEnd msg) ∧
      (ClientMessage.dataEnd msg).GetID = msg.ID) ∧
    (∀ msg, json.msgType data = .ok "ws-opened" → json.wsOpened data = .ok msg →
      UnmarshalClientMessage json data = .ok (.wsOpened msg) ∧
      (ClientMessage.wsOpened msg).GetID = msg.ID) ∧
    (∀ msg, json.msgType data = .ok "ws-message" → json.wsMessage data = .ok msg →
      UnmarshalClientMessage json data = .ok (.wsMessage msg) ∧
      (ClientMessage.wsMessage msg).GetID = msg.ID) ∧
    (∀ msg, json.msgType data = .ok "ws-closed" → json.wsClosed data = .ok msg →
      UnmarshalClientMessage json data = .ok (.wsClosed msg) ∧
      (ClientMessage.wsClosed msg).GetID = msg.ID) := by
  refine ⟨?_, ?_, ?_, ?_, ?_, ?_, ?_, ?_, ?_⟩
  · intro t ht hn
    simp only [List.mem_cons, List.mem_singleton, List.not_mem_nil, or_false, not_or] at hn
    obtain ⟨h1, h2, h3, h4, h5, h6, h7⟩ := hn
    simp only [UnmarshalClientMessage, ht, h1, h2, h3, h4, h5, h6, h7, if_false]
  · intro ht
    simp [UnmarshalClientMessage, ht]
  all_goals
    intro msg ht hm
    simp [UnmarshalClientMessage, ht, hm, ClientMessage.GetID]

/-- Witness for `UnmarshalClientMessage_by_type`: a metadata of type `bogus`
is refused, a metadata of type `register` gives a `RegisterMessage` whose
`GetID` is the decoded id. -/
theorem UnmarshalClientMessage_by_type_witness :
    UnmarshalClientMessage (exampleJson "bogus") [123, 125]
      = .error ("unknown message type: " ++ "bogus") ∧
    (UnmarshalClientMessage (exampleJson "register") [123, 125]
      = .ok (.register { ID := "r1", type := "register", APIKey := "", Domain := "acme.test" }) ∧
     (ClientMessage.register
        { ID := "r1", type := "register", APIKey := "", Domain := "acme.test" }).GetID = "r1") :=
  ⟨(UnmarshalClientMessage_by_type (exampleJson "bogus") [123, 125]).1 "bogus" rfl (by decide),
   (UnmarshalClientMessage_by_type (exampleJson "register") [123, 125]).2.2.1
      { ID := "r1", type := "register", APIKey := "", Domain := "acme.test" } rfl rfl⟩

/-! ## The host registry: lemmas -/

theorem getElem?_set_same {α : Type} (l : List α) (p : Nat) (a x : α) (h : l[p]? = some a) :
    (l.set p x)[p]? = some x := by
  have hp : p < l.length := by
    rcases Nat.lt_or_ge p l.length with h1 | h1
    · exact h1
    · rw [List.getElem?_eq_none h1] at h; simp at h
  simp [List.getElem?_set, hp]

theorem getElem?_set_other {α : Type} (l : List α) (p q : Nat) (x : α) (h : p ≠ q) :
    (l.set p x)[q]? = l[q]? := by
  simp [List.getElem?_set, h]

/-- The deferred loop of `onWSConnect`, entry by entry: the entry for `k` goes
exactly when `k` is one of the linked hosts and still maps to `cid`. -/
theorem foldl_CompareAndDelete (hosts : List String) (cid : String) (m : SyncMap String)
    (k : String) :
    (hosts.foldl (fun m host => SyncMap.CompareAndDelete m host cid) m) k
      = if k ∈ hosts ∧ m k = some cid then none else m k := by
  induction hosts generalizing m with
  | nil => simp
  | cons a l ih =>
    rw [List.foldl_cons, ih]
    by_cases hka : k = a
    · subst hka
      by_cases hm : m k = some cid
      · simp [SyncMap.CompareAndDelete, SyncMap.Delete, hm]
      · simp [SyncMap.CompareAndDelete, hm]
    · by_cases hm : m a = some cid
      · simp [SyncMap.CompareAndDelete, SyncMap.Delete, hm, hka]
      · simp [SyncMap.CompareAndDelete, hm, hka]

/-- What `RegisterMessage.Handle` does to the shared state. -/
theorem RegisterMessage.Handle_spec (r : RegisterMessage) (W : World) (p : Nat)
    (st : ServerConnState) (env : SendEnv) (hst : W.conns[p]? = some st) :
    ∃ W1 e, r.Handle W p env = .returned W1 e ∧
      W1.hostToClientID = SyncMap.Store W.hostToClientID r.Domain st.ClientID ∧
      W1.serverStates = W.serverStates ∧
      W1.tasks = W.tasks ∧
      (∃ st1, W1.conns[p]? = some st1 ∧ st1.ClientID = st.ClientID ∧
        st1.hosts = st.hosts ++ [r.Domain] ∧ st1.OngoingRequests = st.OngoingRequests) ∧
      ∀ q, p ≠ q → W1.conns[q]? = W.conns[q]? := by
  have h1 : (LinkHost W p r.Domain).conns[p]?
      = some { st with hosts := st.hosts ++ [r.Domain] } := by
    simp only [LinkHost, hst, World.setConn]
    exact getElem?_set_same _ _ _ _ hst
  refine ⟨(LinkHost W p r.Domain).setConn p
      { ClientID := st.ClientID
        Ch := (st.Ch.Send (.registered { type := "registered", Domain := r.Domain, ID := r.ID })
          env).1
        OngoingRequests := st.OngoingRequests
        hosts := st.hosts ++ [r.Domain] },
    (st.Ch.Send (.registered { type := "registered", Domain := r.Domain, ID := r.ID }) env).2,
    ?_, ?_, ?_, ?_, ?_, ?_⟩
  · simp only [RegisterMessage.Handle, h1]
  · simp only [LinkHost, hst, World.setConn]
  · simp only [LinkHost, hst, World.setConn]
  · simp only [LinkHost, hst, World.setConn]
  · exact ⟨_, getElem?_set_same _ _ _ _ h1, rfl, rfl, rfl⟩
  · intro q hq
    simp only [LinkHost, hst, World.setConn]
    rw [getElem?_set_other _ _ _ _ hq, getElem?_set_other _ _ _ _ hq]

/-- What the deferred calls of `onWSConnect` do to the two maps and to the
other sessions. -/
theorem onWSConnect_deferred_spec (W : World) (p : Nat) (st : ServerConnState)
    (hst : W.conns[p]? = some st) :
    (onWSConnect_deferred W p).1.hostToClientID
      = st.hosts.foldl (fun m host => SyncMap.CompareAndDelete m host st.ClientID)
          W.hostToClientID ∧
    (onWSConnect_deferred W p).1.serverStates = SyncMap.Delete W.serverStates st.ClientID ∧
    ∀ q, p ≠ q → (onWSConnect_deferred W p).1.conns[q]? = W.conns[q]? := by
  simp only [onWSConnect_deferred, hst]
  cases st.Ch.Close with
  | ok r =>
    refine ⟨rfl, rfl, ?_⟩
    intro q hq
    simp only [World.setConn]
    exact getElem?_set_other _ _ _ _ hq
  | error e => exact ⟨rfl, rfl, fun _ _ => rfl⟩
  | panic e => exact ⟨rfl, rfl, fun _ _ => rfl⟩

/-! ## The host registry: claims -/

/-- C4. Compare-and-delete correctness of the host registry. For two sessions
with different client ids, the second of them stored in `serverStates`: after
the first handles `register` for a host, then the second handles `register`
for the same host, and then the deferred cleanup of the first runs, the host
still maps to the client id of the second and that client id still resolves to
the second session. In general the cleanup of a session removes the entry of a
host exactly when the session linked that host and the entry still holds the
session's client id; every other entry keeps its value. -/
theorem register_compare_and_delete :
    (∀ (W : World) (p1 p2 : Nat) (s1 s2 : ServerConnState) (r1 r2 : RegisterMessage)
        (env1 env2 : SendEnv),
      W.conns[p1]? = some s1 → W.conns[p2]? = some s2 → s1.ClientID ≠ s2.ClientID →
      W.serverStates s2.ClientID = some p2 → r1.Domain = r2.Domain →
      ∃ W1 e1 W2 e2, r1.Handle W p1 env1 = .returned W1 e1 ∧
        r2.Handle W1 p2 env2 = .returned W2 e2 ∧
        (onWSConnect_deferred W2 p1).1.hostToClientID r1.Domain = some s2.ClientID ∧
        (onWSConnect_deferred W2 p1).1.serverStates s2.ClientID = some p2 ∧
        ∃ s, (onWSConnect_deferred W2 p1).1.conns[p2]? = some s ∧ s.ClientID = s2.ClientID) ∧
    (∀ (W : World) (p : Nat) (st : ServerConnState) (k : String),
      W.conns[p]? = some st →
      (onWSConnect_deferred W p).1.hostToClientID k
        = if k ∈ st.hosts ∧ W.hostToClientID k = some st.ClientID then none
          else W.hostToClientID k) := by
  constructor
  · intro W p1 p2 s1 s2 r1 r2 env1 env2 h1 h2 hne hss hdom
    have hp : p1 ≠ p2 := by
      intro h
      subst h
      rw [h1] at h2
      simp only [Option.some.injEq] at h2
      exact hne (by rw [h2])
    obtain ⟨W1, e1, hW1, hm1, hs1, _, ⟨t1, ht1, hc1, _, _⟩, ho1⟩ :=
      RegisterMessage.Handle_spec r1 W p1 s1 env1 h1
    have h2' : W1.conns[p2]? = some s2 := by rw [ho1 p2 hp]; exact h2
    obtain ⟨W2, e2, hW2, hm2, hs2, _, ⟨t2, ht2, hc2, _, _⟩, ho2⟩ :=
      RegisterMessage.Handle_spec r2 W1 p2 s2 env2 h2'
    have h1' : W2.conns[p1]? = some t1 := by rw [ho2 p1 (Ne.symm hp)]; exact ht1
    obtain ⟨hd1, hd2, hd3⟩ := onWSConnect_deferred_spec W2 p1 t1 h1'
    refine ⟨W1, e1, W2, e2, hW1, hW2, ?_, ?_, ?_⟩
    · rw [hd1, foldl_CompareAndDelete, hm2, hdom, hc1]
      simp [SyncMap.Store, hne, Ne.symm hne]
    · rw [hd2, hs2, hs1, hc1]
      simp only [SyncMap.Delete]
      rw [if_neg (Ne.symm hne)]
      exact hss
    · refine ⟨t2, ?_, hc2⟩
      rw [hd3 p2 hp]
      exact ht2
  · intro W p st k hst
    rw [(onWSConnect_deferred_spec W p st hst).1, foldl_CompareAndDelete]

/-- Witness for `register_compare_and_delete`: the sessions `a` (pointer 0)
and `b` (pointer 1) register `acme.test` in that order, then `a` disconnects;
and the cleanup of `a` in that state, entry by entry. -/
theorem register_compare_and_delete_witness :
    (∃ W1 e1 W2 e2,
      RegisterMessage.Handle { ID := "r1", type := "register", APIKey := "", Domain := "acme.test" }
        (onWSConnect_open (onWSConnect_open New "a").1 "b").1 0 .writerTakes
          = .returned W1 e1 ∧
      RegisterMessage.Handle { ID := "r2", type := "register", APIKey := "", Domain := "acme.test" }
        W1 1 .writerTakes = .returned W2 e2 ∧
      (onWSConnect_deferred W2 0).1.hostToClientID "acme.test" = some "b" ∧
      (onWSConnect_deferred W2 0).1.serverStates "b" = some 1 ∧
      ∃ s, (onWSConnect_deferred W2 0).1.conns[1]? = some s ∧ s.ClientID = "b") ∧
    (∀ k, (onWSConnect_deferred exampleServer 0).1.hostToClientID k
      = if k ∈ ["acme.test"] ∧ exampleServer.hostToClientID k = some "c1" then none
        else exampleServer.hostToClientID k) :=
  ⟨register_compare_and_delete.1 (onWSConnect_open (onWSConnect_open New "a").1 "b").1 0 1
      { ClientID := "a", Ch := NewDuplexChan, OngoingRequests := fun _ => none, hosts := [] }
      { ClientID := "b", Ch := NewDuplexChan, OngoingRequests := fun _ => none, hosts := [] }
      { ID := "r1", type := "register", APIKey := "", Domain := "acme.test" }
      { ID := "r2", type := "register", APIKey := "", Domain := "acme.test" }
      .writerTakes .writerTakes rfl rfl (by decide) rfl rfl,
   fun k => register_compare_and_delete.2 exampleServer 0
      { ClientID := "c1", Ch := NewDuplexChan, OngoingRequests := fun _ => none,
        hosts := ["acme.test"] } k rfl⟩

/-! ## The goroutines of one session: every run ends -/

/-- Replacing one task changes the total weight by the difference of the two
task weights. -/
theorem sum_weight_set (l : List HttpTask) (h : Nat) (t t1 : HttpTask) (ht : l[h]? = some t) :
    ((l.set h t1).map HttpTask.weight).sum + t.weight
      = (l.map HttpTask.weight).sum + t1.weight := by
  induction l generalizing h with
  | nil => simp at ht
  | cons a l ih =>
    cases h with
    | zero =>
      simp only [List.getElem?_cons_zero, Option.some.injEq] at ht
      subst ht
      simp only [List.set_cons_zero, List.map_cons, List.sum_cons]
      omega
    | succ k =>
      simp only [List.getElem?_cons_succ] at ht
      have := ih k ht
      simp only [List.set_cons_succ, List.map_cons, List.sum_cons]
      omega

/-- A task replaced by one with the same goroutine states weighs the same. -/
theorem sum_weight_set_same (l : List HttpTask) (h : Nat) (t t1 : HttpTask)
    (ht : l[h]? = some t) (hw : t1.weight = t.weight) :
    ((l.set h t1).map HttpTask.weight).sum = (l.map HttpTask.weight).sum := by
  have := sum_weight_set l h t t1 ht
  omega

/-- The method `Handle` leaves the weight of every task as it is. -/
theorem Handle_weight (lib : Lib) (msg : ClientMessage) (W : World) (conn : Nat) (env : SendEnv) :
    (∀ W1 e, msg.Handle lib W conn env = .returned W1 e →
      (W1.tasks.map HttpTask.weight).sum = (W.tasks.map HttpTask.weight).sum) ∧
    (∀ W1 h c, msg.Handle lib W conn env = .sending W1 h c →
      (W1.tasks.map HttpTask.weight).sum = (W.tasks.map HttpTask.weight).sum) := by
  cases msg with
  | register s =>
    simp only [ClientMessage.Handle, RegisterMessage.Handle]
    constructor
    · intro W1 e h
      split at h
      · simp at h
      · simp only [HandleResult.returned.injEq] at h
        rw [← h.1]
        simp only [World.setConn, LinkHost]
        split <;> rfl
    · intro W1 h c hh
      split at hh <;> simp at hh
  | responseStart s =>
    simp only [ClientMessage.Handle, ResponseStartMessage.Handle]
    constructor
    · intro W1 e h
      split at h
      · simp at h
      · split at h
        · simp only [HandleResult.returned.injEq] at h
          rw [← h.1]
        · split at h
          · simp at h
          · rename_i t ht
            split at h
            · simp at h
            · simp only [HandleResult.returned.injEq] at h
              rw [← h.1]
              simp only [World.setTask]
              exact sum_weight_set_same _ _ _ _ ht rfl
    · intro W1 h c hh
      split at hh
      · simp at hh
      · split at hh
        · simp at hh
        · split at hh
          · simp at hh
          · split at hh <;> simp at hh
  | data s =>
    simp only [ClientMessage.Handle, DataMessage.Handle]
    constructor
    · intro W1 e h
      split at h
      · simp at h
      · split at h
        · simp only [HandleResult.returned.injEq] at h
          rw [← h.1]
        · split at h
          · simp at h
          · split at h <;> simp at h
    · intro W1 h c hh
      split at hh
      · simp at hh
      · split at hh
        · simp at hh
        · split at hh
          · simp at hh
          · split at hh
            · simp at hh
            · simp only [HandleResult.sending.injEq] at hh
              rw [← hh.1]
  | dataEnd s =>
    simp only [ClientMessage.Handle, DataEndMessage.Handle]
    constructor
    · intro W1 e h
      split at h
      · simp at h
      · split at h
        · simp only [HandleResult.returned.injEq] at h
          rw [← h.1]
        · split at h
          · simp at h
          · rename_i t ht
            split at h
            · simp at h
            · simp only [HandleResult.returned.injEq] at h
              rw [← h.1]
              simp only [World.setTask]
              exact sum_weight_set_same _ _ _ _ ht rfl
    · intro W1 h c hh
      split at hh
      · simp at hh
      · split at hh
        · simp at hh
        · split at hh
          · simp at hh
          · split at hh <;> simp at hh
  | wsOpened s =>
    simp only [ClientMessage.Handle]
    exact ⟨fun W1 e h => by simp only [HandleResult.returned.injEq] at h; rw [← h.1],
      fun W1 h c hh => by simp at hh⟩
  | wsMessage s =>
    simp only [ClientMessage.Handle]
    exact ⟨fun W1 e h => by simp only [HandleResult.returned.injEq] at h; rw [← h.1],
      fun W1 h c hh => by simp at hh⟩
  | wsClosed s =>
    simp only [ClientMessage.Handle]
    exact ⟨fun W1 e h => by simp only [HandleResult.returned.injEq] at h; rw [← h.1],
      fun W1 h c hh => by simp at hh⟩

/-- Every step lowers the weight of the machine. -/
theorem Step.weight_lt {lib : Lib} {m m1 : Machine} (h : Step lib m m1) :
    m1.weight < m.weight := by
  cases h with
  | dispatch env hd =>
    unfold Machine.dispatch at hd
    split at hd
    · rename_i message rest hdisp hin
      have hw := Handle_weight lib message m.W m.conn env
      split at hd
      · rename_i W1 hH
        simp only [Option.some.injEq] at hd
        subst hd
        have := hw.1 W1 none hH
        simp only [Machine.weight, hdisp, hin, List.length_cons, this]
        omega
      · rename_i W1 err hH
        simp only [Option.some.injEq] at hd
        subst hd
        have := hw.1 W1 (some err) hH
        simp only [Machine.weight, hdisp, hin, List.length_cons]
        split
        · omega
        · simp only [World.setConn]
          omega
      · rename_i W1 task chunk hH
        simp only [Option.some.injEq] at hd
        subst hd
        have := hw.2 W1 task chunk hH
        simp only [Machine.weight, hin, List.length_cons, this]
        omega
      · simp only [Option.some.injEq] at hd
        subst hd
        simp only [Machine.weight, hdisp, hin, List.length_cons]
        omega
    · simp at hd
  | drainCancel h hd =>
    unfold Machine.drainCancel at hd
    split at hd
    · rename_i t ht
      split at hd
      · rename_i hc
        simp only [Option.some.injEq] at hd
        subst hd
        have := sum_weight_set m.W.tasks h t { t with drain := .exited } ht
        simp only [HttpTask.weight, hc.1] at this
        simp only [Machine.weight, World.setTask]
        omega
      · simp at hd
    · simp at hd
  | drainClosed h hd =>
    unfold Machine.drainClosed at hd
    split at hd
    · rename_i t ht
      split at hd
      · rename_i hc
        simp only [Option.some.injEq] at hd
        subst hd
        have := sum_weight_set m.W.tasks h t { t with drain := .exited } ht
        simp only [HttpTask.weight, hc.1] at this
        simp only [Machine.weight, World.setTask]
        omega
      · simp at hd
    · simp at hd
  | drainRecv h hd =>
    unfold Machine.drainRecv at hd
    split at hd
    · rename_i task chunk t hdisp ht
      split at hd
      · rename_i hc
        simp only [Option.some.injEq] at hd
        subst hd
        have := sum_weight_set m.W.tasks h t { t with drain := .writing chunk } ht
        simp only [HttpTask.weight, hc.2.1] at this
        simp only [Machine.weight, World.setTask, hdisp]
        omega
      · simp at hd
    · simp at hd
  | drainWrite h hd =>
    unfold Machine.drainWrite at hd
    split at hd
    · rename_i t ht
      split at hd
      · rename_i chunk hdr
        simp only [Option.some.injEq] at hd
        subst hd
        simp only [Machine.weight, World.setTask]
        cases hb : (t.w.Write lib chunk).2
        · have := sum_weight_set m.W.tasks h t
            { t with w := (t.w.Write lib chunk).1, drain := .exited } ht
          simp only [HttpTask.weight, hdr] at this
          simp only [Bool.false_eq_true, if_false]
          omega
        · have := sum_weight_set m.W.tasks h t
            { t with w := (t.w.Write lib chunk).1, drain := .selecting } ht
          simp only [HttpTask.weight, hdr] at this
          simp only [if_true]
          omega
      · simp at hd
    · simp at hd
  | handlerReturn h hd =>
    unfold Machine.handlerReturn at hd
    split at hd
    · rename_i t ht
      split at hd
      · rename_i hc
        simp only [Option.some.injEq] at hd
        subst hd
        have := sum_weight_set m.W.tasks h t { t with handler := .returned } ht
        simp only [HttpTask.weight, hc.1] at this
        simp only [Machine.weight, World.setTask]
        omega
      · simp at hd
    · simp at hd

/-- A run of `n` steps uses up at least `n` of the weight: no run is longer
than the weight of the state it starts from. -/
theorem Run.weight_le {lib : Lib} {n : Nat} {m m1 : Machine} (h : Run lib n m m1) :
    n + m1.weight ≤ m.weight := by
  induction h with
  | refl m => omega
  | step hs _ ih =>
    have := hs.weight_lt
    omega

/-- From every state some run ends in a state where no goroutine can move. -/
theorem exists_stuck (lib : Lib) (m : Machine) : ∃ n m1, Run lib n m m1 ∧ m1.Stuck lib := by
  have key : ∀ k (m : Machine), m.weight = k → ∃ n m1, Run lib n m m1 ∧ m1.Stuck lib := by
    intro k
    induction k using Nat.strong_induction_on with
    | _ k ih =>
      intro m hk
      by_cases hs : m.Stuck lib
      · exact ⟨0, m, Run.refl m, hs⟩
      · simp only [Machine.Stuck, not_forall, not_not] at hs
        obtain ⟨m1, hstep⟩ := hs
        have hlt := hstep.weight_lt
        obtain ⟨n, m2, hrun, hst⟩ := ih m1.weight (by omega) m1 rfl
        exact ⟨n + 1, m2, Run.step hstep hrun, hst⟩
  exact key m.weight m rfl

/-! ## Streaming a response: the `Handle` methods on a pending request -/

theorem responseStart_Handle_pending (lib : Lib) (s : ResponseStartMessage) (W : World)
    (conn : Nat) (st : ServerConnState) (req : RequestObject) (t : HttpTask)
    (hst : W.conns[conn]? = some st) (hreq : st.OngoingRequests s.ID = some req)
    (ht : W.tasks[req.task]? = some t) :
    s.Handle lib W conn =
      match s.writeHead lib t.w with
      | none => .panicked "invalid WriteHeader code"
      | some w => .returned (W.setTask req.task { t with w := w }) none := by
  simp only [ResponseStartMessage.Handle, hst, hreq, ht]
  rfl

theorem data_Handle_pending (s : DataMessage) (W : World)
    (conn : Nat) (st : ServerConnState) (req : RequestObject) (t : HttpTask)
    (hst : W.conns[conn]? = some st) (hreq : st.OngoingRequests s.ID = some req)
    (ht : W.tasks[req.task]? = some t) :
    s.Handle W conn
      = if t.chanClosed then .panicked "send on closed channel"
        else .sending W req.task s.Chunk := by
  simp only [DataMessage.Handle, hst, hreq, ht]

theorem dataEnd_Handle_pending (s : DataEndMessage) (W : World)
    (conn : Nat) (st : ServerConnState) (req : RequestObject) (t : HttpTask)
    (hst : W.conns[conn]? = some st) (hreq : st.OngoingRequests s.ID = some req)
    (ht : W.tasks[req.task]? = some t) :
    s.Handle W conn
      = if t.chanClosed then .panicked "close of closed channel"
        else .returned (W.setTask req.task { t with chanClosed := true }) none := by
  simp only [DataEndMessage.Handle, hst, hreq, ht]

theorem setTask_get (W : World) (h : Nat) (t t1 : HttpTask) (ht : W.tasks[h]? = some t) :
    (W.setTask h t1).tasks[h]? = some t1 := by
  simp only [World.setTask]
  exact getElem?_set_same _ _ _ _ ht

theorem setTask_get_other (W : World) (h k : Nat) (t1 : HttpTask) (hk : h ≠ k) :
    (W.setTask h t1).tasks[k]? = W.tasks[k]? := by
  simp only [World.setTask]
  exact getElem?_set_other _ _ _ _ hk

/-! ## Streaming a response: headers -/

theorem foldl_Set_other (canon : String → String) (H : List (String × String)) (h0 : Header)
    (x : String) (hx : x ∉ H.map (fun kv => canon kv.1)) :
    (H.foldl (fun (h : Header) (kv : String × String) => Header.Set canon h kv.1 kv.2) h0) x
      = h0 x := by
  induction H generalizing h0 with
  | nil => rfl
  | cons a l ih =>
    simp only [List.map_cons, List.mem_cons, not_or] at hx
    rw [List.foldl_cons, ih _ hx.2]
    simp only [Header.Set, hx.1, if_false]

theorem foldl_Set_mem (canon : String → String) (H : List (String × String)) (h0 : Header)
    (k v : String) (hnd : (H.map (fun kv => canon kv.1)).Nodup) (hkv : (k, v) ∈ H) :
    (H.foldl (fun (h : Header) (kv : String × String) => Header.Set canon h kv.1 kv.2) h0)
      (canon k) = some [v] := by
  induction H generalizing h0 with
  | nil => simp at hkv
  | cons a l ih =>
    simp only [List.map_cons, List.nodup_cons] at hnd
    rw [List.foldl_cons]
    rcases List.mem_cons.1 hkv with h | h
    · subst h
      rw [foldl_Set_other canon l _ _ hnd.1]
      simp only [Header.Set, if_true]
    · exact ih _ hnd.2 h

/-- What a `WriteHeader` call that returns leaves alone, and what it records. -/
theorem WriteHeader_fields (w w1 : ResponseWriter) (code : Int)
    (h : w.WriteHeader code = some w1) :
    w1.header = w.header ∧ w1.status = w.status ++ [code] ∧ w1.body = w.body ∧
      w1.broken = w.broken := by
  unfold ResponseWriter.WriteHeader at h
  split at h
  · simp only [Option.some.injEq] at h
    subst h
    exact ⟨rfl, rfl, rfl, rfl⟩
  · split at h
    · simp at h
    · split at h
      · simp only [Option.some.injEq] at h
        subst h
        exact ⟨rfl, rfl, rfl, rfl⟩
      · simp only [Option.some.injEq] at h
        subst h
        exact ⟨rfl, rfl, rfl, rfl⟩

/-- On a writer whose header is not written yet, `WriteHeader` with a code
from 200 to 999 returns and makes the code the status of the response. -/
theorem WriteHeader_final (w : ResponseWriter) (code : Int) (hs : w.sent = none)
    (hc : 200 ≤ code ∧ code ≤ 999) :
    ∃ w1, w.WriteHeader code = some w1 ∧ w1.sent = some code := by
  have h1 : ¬ (code < 100 ∨ 999 < code) := by omega
  have h2 : ¬ (100 ≤ code ∧ code ≤ 199 ∧ code ≠ 101) := by omega
  refine ⟨{ w with status := w.status ++ [code], sent := some code }, ?_, rfl⟩
  simp only [ResponseWriter.WriteHeader, hs, Option.isSome_none, Bool.false_eq_true, if_false,
    h1, h2]

/-- The call `WriteHeader(400)` never panics. -/
theorem WriteHeader_400 (w : ResponseWriter) : ∃ w1, w.WriteHeader 400 = some w1 := by
  unfold ResponseWriter.WriteHeader
  split
  · exact ⟨_, rfl⟩
  · exact ⟨_, rfl⟩

/-- What `Write` leaves alone. -/
theorem Write_fields (lib : Lib) (w : ResponseWriter) (p : Bytes) :
    (w.Write lib p).1.header = w.header ∧ (w.Write lib p).1.status = w.status ∧
      ∀ code, w.sent = some code → (w.Write lib p).1.sent = some code := by
  unfold ResponseWriter.Write
  cases hs : w.sent with
  | none =>
    simp only [Option.isSome_none, Bool.false_eq_true, if_false]
    split
    · exact ⟨rfl, rfl, fun _ h => by simp at h⟩
    · exact ⟨rfl, rfl, fun _ h => by simp at h⟩
  | some c =>
    simp only [Option.isSome_some, if_true]
    split
    · exact ⟨rfl, rfl, fun _ h => by rw [hs]; exact h⟩
    · exact ⟨rfl, rfl, fun _ h => by rw [hs]; exact h⟩

/-- A `Write` that returns a nil error has appended its bytes to the body. -/
theorem Write_body (lib : Lib) (w : ResponseWriter) (p : Bytes)
    (h : (w.Write lib p).2 = true) : (w.Write lib p).1.body = w.body ++ p := by
  unfold ResponseWriter.Write at h ⊢
  cases hs : w.sent with
  | none =>
    simp only [hs, Option.isSome_none, Bool.false_eq_true, if_false] at h ⊢
    split
    · rename_i hc
      simp only [hc, if_true] at h
      simp at h
    · rfl
  | some c =>
    simp only [hs, Option.isSome_some, if_true] at h ⊢
    split
    · rename_i hc
      simp only [hc, if_true] at h
      simp at h
    · rfl

theorem writeAll_snoc (lib : Lib) (w : ResponseWriter) (cs : List Bytes) (c : Bytes) :
    w.writeAll lib (cs ++ [c]) = ((w.writeAll lib cs).Write lib c).1 := by
  simp only [ResponseWriter.writeAll, List.foldl_append, List.foldl_cons, List.foldl_nil]

/-- When the writer accepts every chunk, the chunks are appended to the body in
order and nothing else changes. -/
theorem writeAll_of_acceptsAll (lib : Lib) (w : ResponseWriter) (cs : List Bytes)
    (h : w.acceptsAll lib cs = true) :
    (w.writeAll lib cs).header = w.header ∧ (w.writeAll lib cs).status = w.status ∧
      (w.writeAll lib cs).body = w.body ++ cs.flatten ∧
      ∀ code, w.sent = some code → (w.writeAll lib cs).sent = some code := by
  induction cs generalizing w with
  | nil => exact ⟨rfl, rfl, by simp [ResponseWriter.writeAll], fun _ h => h⟩
  | cons c cs ih =>
    simp only [ResponseWriter.acceptsAll, Bool.and_eq_true] at h
    obtain ⟨i1, i2, i3, i4⟩ := ih _ h.2
    obtain ⟨f1, f2, f3⟩ := Write_fields lib w c
    have hb := Write_body lib w c h.1
    simp only [ResponseWriter.writeAll, List.foldl_cons] at i1 i2 i3 i4 ⊢
    refine ⟨by rw [i1, f1], by rw [i2, f2], ?_, fun code hc => i4 code (f3 code hc)⟩
    rw [i3, hb, List.flatten_cons, List.append_assoc]

/-- On a pending request whose response header is not written yet,
`response-start` with a status code from 200 to 999 is handled without a panic
and makes the code the status of the response. -/
theorem writeHead_final (lib : Lib) (s : ResponseStartMessage) (w : ResponseWriter)
    (hs : w.sent = none) (hc : 200 ≤ s.StatusCode ∧ s.StatusCode ≤ 999) :
    ∃ wh, s.writeHead lib w = some wh ∧ wh.sent = some s.StatusCode :=
  WriteHeader_final _ s.StatusCode hs hc

/-- The headers after `ResponseStartMessage.Handle`. -/
theorem writeHead_header (lib : Lib) (s : ResponseStartMessage) (w wh : ResponseWriter)
    (hwh : s.writeHead lib w = some wh)
    (hnd : (s.Headers.map (fun kv => lib.canon kv.1)).Nodup) :
    Header.Get lib.canon wh.header "transfer-encoding" = "chunked" ∧
    ∀ k v, (k, v) ∈ s.Headers → lib.canon k ≠ lib.canon "transfer-encoding" →
      Header.Get lib.canon wh.header k = v := by
  have hh := (WriteHeader_fields _ _ _ hwh).1
  constructor
  · rw [hh]
    simp only [Header.Get, Header.Set, if_true]
  · intro k v hkv hne
    rw [hh]
    simp only [Header.Get, Header.Set, hne, if_false]
    rw [foldl_Set_mem lib.canon s.Headers w.header k v hnd hkv]

/-! ## Streaming a response: the invariant -/

/-- The invariant only looks at the session pointer, the session states, the
inbox, the message loop, the returned values, and four fields of the task. -/
theorem Streaming.congr {lib : Lib} {conn0 : Nat} {conns0 : List ServerConnState} {h : Nat}
    {w0 wh : ResponseWriter} {hd0 : List (Option String)} {rs : ResponseStartMessage}
    {ds : List DataMessage} {de : DataEndMessage} {m m1 : Machine}
    (hinv : Streaming lib conn0 conns0 h w0 wh hd0 rs ds de m)
    (hc : m1.conn = m.conn) (hcs : m1.W.conns = m.W.conns)
    (ht : ∀ t, m.W.tasks[h]? = some t → ∃ t1, m1.W.tasks[h]? = some t1 ∧ t1.w = t.w ∧
      t1.chanClosed = t.chanClosed ∧ t1.ctxDone = t.ctxDone ∧ t1.drain = t.drain)
    (hi : m1.inbox = m.inbox) (hd : m1.disp = m.disp) (hh : m1.handled = m.handled) :
    Streaming lib conn0 conns0 h w0 wh hd0 rs ds de m1 := by
  obtain ⟨h1, h2, t, h3, h4, h6⟩ := hinv
  obtain ⟨t1, e1, e2, e3, e4, e5⟩ := ht t h3
  refine ⟨by rw [hc, h1], by rw [hcs, h2], t1, e1, by rw [e4, h4], ?_⟩
  rw [hi, hd, hh, e2, e3, e5]
  exact h6

theorem dispatch_idle (lib : Lib) (env : SendEnv) (m : Machine) (message : ClientMessage)
    (rest : List ClientMessage) (hd : m.disp = .idle) (hi : m.inbox = message :: rest) :
    m.dispatch lib env =
      match message.Handle lib m.W m.conn env with
      | .returned W none =>
        some { m with W := W, inbox := rest, handled := m.handled ++ [none] }
      | .returned W (some err) =>
        let W1 := match W.conns[m.conn]? with
          | none => W
          | some st =>
            W.setConn m.conn
              { st with OngoingRequests := SyncMap.Delete st.OngoingRequests message.GetID }
        some { m with W := W1, inbox := rest, handled := m.handled ++ [some err] }
      | .sending W task chunk =>
        some { m with W := W, inbox := rest, disp := .sending task chunk }
      | .panicked msg => some { m with inbox := rest, disp := .panicked msg } := by
  unfold Machine.dispatch
  split
  · rename_i a b c d e f
    rw [hi] at f
    simp only [List.cons.injEq] at f
    obtain ⟨rfl, rfl⟩ := f
    rfl
  · rename_i hn
    exact absurd hi (hn _ _ hd)

theorem dispatch_not_idle (lib : Lib) (env : SendEnv) (m : Machine) (hd : m.disp ≠ .idle) :
    m.dispatch lib env = none := by
  unfold Machine.dispatch
  split
  · rename_i a b c d e f
    exact absurd e hd
  · rfl

theorem dispatch_empty (lib : Lib) (env : SendEnv) (m : Machine) (hi : m.inbox = []) :
    m.dispatch lib env = none := by
  unfold Machine.dispatch
  split
  · rename_i a b c d e f
    rw [hi] at f
    simp at f
  · rfl

/-- Every step of a goroutine keeps the streaming invariant. -/
theorem Streaming.step {lib : Lib} {conn0 : Nat} {conns0 : List ServerConnState}
    {w0 wh : ResponseWriter} {hd0 : List (Option String)} {rs : ResponseStartMessage}
    {ds : List DataMessage} {de : DataEndMessage} {st : ServerConnState} {req : RequestObject}
    (hst : conns0[conn0]? = some st) (hreq : st.OngoingRequests rs.ID = some req)
    (hids : ∀ d ∈ ds, d.ID = rs.ID) (hde : de.ID = rs.ID)
    (hwh : rs.writeHead lib w0 = some wh)
    (hacc : wh.acceptsAll lib (ds.map (fun d => d.Chunk)) = true)
    {m m1 : Machine}
    (hinv : Streaming lib conn0 conns0 req.task w0 wh hd0 rs ds de m) (hstep : Step lib m m1) :
    Streaming lib conn0 conns0 req.task w0 wh hd0 rs ds de m1 := by
  cases hstep with
  | drainCancel h hd =>
    unfold Machine.drainCancel at hd
    split at hd
    · rename_i t ht
      split at hd
      · rename_i hc
        simp only [Option.some.injEq] at hd
        subst hd
        refine hinv.congr (by rfl) (by rfl) ?_ (by rfl) (by rfl) (by rfl)
        intro t2 ht2
        by_cases hh : h = req.task
        · subst hh
          obtain ⟨_, _, t3, h3, h4, _⟩ := hinv
          rw [ht] at h3
          simp only [Option.some.injEq] at h3
          subst h3
          rw [hc.2] at h4
          simp at h4
        · exact ⟨t2, by rw [setTask_get_other _ _ _ _ hh]; exact ht2, rfl, rfl, rfl, rfl⟩
      · simp at hd
    · simp at hd
  | handlerReturn h hd =>
    unfold Machine.handlerReturn at hd
    split at hd
    · rename_i t ht
      split at hd
      · simp only [Option.some.injEq] at hd
        subst hd
        refine hinv.congr (by rfl) (by rfl) ?_ (by rfl) (by rfl) (by rfl)
        intro t2 ht2
        by_cases hh : h = req.task
        · subst hh
          rw [ht] at ht2
          simp only [Option.some.injEq] at ht2
          subst ht2
          exact ⟨_, setTask_get _ _ _ _ ht, rfl, rfl, rfl, rfl⟩
        · exact ⟨t2, by rw [setTask_get_other _ _ _ _ hh]; exact ht2, rfl, rfl, rfl, rfl⟩
      · simp at hd
    · simp at hd
  | drainClosed h hd =>
    unfold Machine.drainClosed at hd
    split at hd
    · rename_i t ht
      split at hd
      · rename_i hc
        simp only [Option.some.injEq] at hd
        subst hd
        by_cases hh : h = req.task
        · subst hh
          obtain ⟨h1, h2, t3, h3, h4, h6⟩ := hinv
          rw [ht] at h3
          simp only [Option.some.injEq] at h3
          subst h3
          refine ⟨h1, h2, _, setTask_get _ _ _ _ ht, h4, ?_⟩
          rcases h6 with ⟨_, _, _, _, _, hcl⟩ | ⟨sent, todo, written, dw, dsp, a1, a2, a3, a4, a6, a7, a8, a9, a10⟩
          · rw [hc.2] at hcl
            simp at hcl
          · right
            rw [hc.1] at a10
            simp only [] at a10
            exact ⟨sent, todo, written, dw, dsp, a1, a2, a3, a4, a6, a7, a8, a9, a10, hc.2⟩
        · refine hinv.congr (by rfl) (by rfl) ?_ (by rfl) (by rfl) (by rfl)
          intro t2 ht2
          exact ⟨t2, by rw [setTask_get_other _ _ _ _ hh]; exact ht2, rfl, rfl, rfl, rfl⟩
      · simp at hd
    · simp at hd
  | drainWrite h hd =>
    unfold Machine.drainWrite at hd
    split at hd
    · rename_i t ht
      split at hd
      · rename_i chunk hdr
        simp only [Option.some.injEq] at hd
        subst hd
        by_cases hh : h = req.task
        · subst hh
          obtain ⟨h1, h2, t3, h3, h4, h6⟩ := hinv
          rw [ht] at h3
          simp only [Option.some.injEq] at h3
          subst h3
          refine ⟨h1, h2, _, setTask_get _ _ _ _ ht, h4, ?_⟩
          rcases h6 with ⟨_, _, _, _, hsel, _⟩ | ⟨sent, todo, written, dw, dsp, a1, a2, a3, a4, a6, a7, a8, a9, a10⟩
          · rw [hdr] at hsel
            simp at hsel
          · right
            rw [hdr] at a10
            simp only [] at a10
            subst a10
            simp only [Option.toList, List.singleton_append, List.cons_append,
              ResponseWriter.acceptsAll, Bool.and_eq_true] at a4
            rw [← a3] at a4
            refine ⟨sent, todo, written ++ [chunk], none, dsp, a1, ?_, ?_, ?_, a6, ?_, a8, a9, ?_⟩
            · rw [a2]; simp
            · rw [writeAll_snoc, ← a3]
            · rw [writeAll_snoc, ← a3]
              exact a4.2
            · rw [a7]
              simp only [Option.toList, List.length_append, List.length_singleton,
                List.length_nil]
              rfl
            · simp only [a4.1, if_true]
        · refine hinv.congr (by rfl) (by rfl) ?_ (by rfl) (by rfl) (by rfl)
          intro t2 ht2
          exact ⟨t2, by rw [setTask_get_other _ _ _ _ hh]; exact ht2, rfl, rfl, rfl, rfl⟩
      · simp at hd
    · simp at hd
  | drainRecv h hd =>
    unfold Machine.drainRecv at hd
    split at hd
    · rename_i task chunk t hdisp ht
      split at hd
      · rename_i hc
        simp only [Option.some.injEq] at hd
        subst hd
        obtain ⟨h1, h2, t3, h3, h4, h6⟩ := hinv
        rcases h6 with ⟨_, hidle, _⟩ | ⟨sent, todo, written, dw, dsp, a1, a2, a3, a4, a6, a7, a8, a9, a10⟩
        · rw [hdisp] at hidle
          simp at hidle
        · rw [hdisp] at a6
          cases dsp with
          | none => simp at a6
          | some c =>
            simp only [Disp.sending.injEq] at a6
            obtain ⟨ha, hb⟩ := a6
            obtain ⟨hc1, hc2, hc3⟩ := hc
            subst hc1
            subst hb
            rw [ha] at ht
            rw [ht] at h3
            simp only [Option.some.injEq] at h3
            subst h3
            rw [hc2] at a10
            simp only [] at a10
            subst a10
            rw [ha]
            refine ⟨h1, h2, _, setTask_get _ _ _ _ ht, h4, Or.inr
              ⟨sent, todo, written, some chunk, none, a1, ?_, a3, ?_, rfl, ?_, a8, ?_, rfl⟩⟩
            · rw [a2]; simp
            · simpa using a4
            · simp only [a7, hc3, Option.toList, List.length_nil, List.length_singleton,
                Bool.false_eq_true, if_false, List.append_assoc]
              rw [← List.replicate_succ']
            · intro hcl
              simp only [] at hcl
              rw [hc3] at hcl
              simp at hcl
      · simp at hd
    · simp at hd
  | dispatch env hd =>
    obtain ⟨h1, h2, t, h3, h4, h6⟩ := hinv
    have hst1 : m.W.conns[m.conn]? = some st := by rw [h1, h2]; exact hst
    rcases h6 with ⟨hin, hidle, hhd, hw, hsel, hcl⟩ | ⟨sent, todo, written, dw, dsp, a1, a2, a3, a4, a6, a7, a8, a9, a10⟩
    · rw [dispatch_idle lib env m _ _ hidle hin] at hd
      simp only [ClientMessage.Handle,
        responseStart_Handle_pending lib rs m.W m.conn st req t hst1 hreq h3, hw, hwh,
        Option.some.injEq] at hd
      subst hd
      refine ⟨h1, h2, _, setTask_get _ _ _ _ h3, h4, Or.inr
        ⟨[], ds, [], none, none, rfl, rfl, rfl, hacc, hidle, ?_, ?_, ?_, ?_⟩⟩
      · simp only [hhd, hcl]
        rfl
      · simp only [hcl]
        rfl
      · intro hc
        simp only [] at hc
        rw [hcl] at hc
        simp at hc
      · simp only [hsel]
    · cases dsp with
      | some c =>
        rw [dispatch_not_idle lib env m (by rw [a6]; simp)] at hd
        simp at hd
      | none =>
        simp only [] at a6
        cases hcl : t.chanClosed with
        | true =>
          rw [hcl] at a8
          rw [dispatch_empty lib env m (by rw [a8]; rfl)] at hd
          simp at hd
        | false =>
          rw [hcl] at a8
          simp only [Bool.false_eq_true, if_false] at a8
          cases todo with
          | nil =>
            simp only [List.map_nil, List.nil_append] at a8
            rw [dispatch_idle lib env m _ _ a6 a8] at hd
            have hreq1 : st.OngoingRequests de.ID = some req := by rw [hde]; exact hreq
            simp only [ClientMessage.Handle,
              dataEnd_Handle_pending de m.W m.conn st req t hst1 hreq1 h3, hcl,
              Bool.false_eq_true, if_false, Option.some.injEq] at hd
            subst hd
            refine ⟨h1, h2, _, setTask_get _ _ _ _ h3, h4, Or.inr
              ⟨sent, [], written, dw, none, a1, a2, a3, a4, a6, ?_, rfl, ?_, ?_⟩⟩
            · simp only [a7, hcl, Bool.false_eq_true, if_false, if_true, List.append_assoc]
              rw [← List.replicate_succ']
            · intro _
              exact ⟨rfl, rfl⟩
            · simp only []
              cases hdr : t.drain with
              | notStarted => rw [hdr] at a10; exact a10
              | selecting => rw [hdr] at a10; exact a10
              | writing c => rw [hdr] at a10; exact a10
              | exited =>
                rw [hdr] at a10
                simp only [] at a10
                rw [hcl] at a10
                simp at a10
          | cons d todo1 =>
            simp only [List.map_cons, List.cons_append] at a8
            rw [dispatch_idle lib env m _ _ a6 a8] at hd
            have hd_id : d.ID = rs.ID := hids d (by rw [a1]; simp)
            have hreq1 : st.OngoingRequests d.ID = some req := by rw [hd_id]; exact hreq
            simp only [ClientMessage.Handle,
              data_Handle_pending d m.W m.conn st req t hst1 hreq1 h3, hcl,
              Bool.false_eq_true, if_false, Option.some.injEq] at hd
            subst hd
            refine ⟨h1, h2, t, h3, h4, Or.inr
              ⟨sent ++ [d], todo1, written, dw, some d.Chunk, ?_, ?_, a3, ?_, rfl, a7, ?_,
                ?_, a10⟩⟩
            · rw [a1]; simp
            · rw [List.map_append, a2]; simp
            · simpa using a4
            · simp only [hcl, Bool.false_eq_true, if_false]
            · intro hc
              rw [hcl] at hc
              simp at hc

/-- The invariant holds all along a run. -/
theorem Streaming.run {lib : Lib} {conn0 : Nat} {conns0 : List ServerConnState}
    {w0 wh : ResponseWriter} {hd0 : List (Option String)} {rs : ResponseStartMessage}
    {ds : List DataMessage} {de : DataEndMessage} {st : ServerConnState} {req : RequestObject}
    (hst : conns0[conn0]? = some st) (hreq : st.OngoingRequests rs.ID = some req)
    (hids : ∀ d ∈ ds, d.ID = rs.ID) (hde : de.ID = rs.ID)
    (hwh : rs.writeHead lib w0 = some wh)
    (hacc : wh.acceptsAll lib (ds.map (fun d => d.Chunk)) = true)
    {n : Nat} {m m1 : Machine} (hrun : Run lib n m m1)
    (hinv : Streaming lib conn0 conns0 req.task w0 wh hd0 rs ds de m) :
    Streaming lib conn0 conns0 req.task w0 wh hd0 rs ds de m1 := by
  induction hrun with
  | refl m => exact hinv
  | step hs _ ih => exact ih (Streaming.step hst hreq hids hde hwh hacc hinv hs)

/-- The message loop can take the next message whenever it is idle and the
inbox is not empty. -/
theorem dispatch_enabled (lib : Lib) (m : Machine) (message : ClientMessage)
    (rest : List ClientMessage) (hd : m.disp = .idle) (hi : m.inbox = message :: rest) :
    ∃ m1, Step lib m m1 := by
  have h := dispatch_idle lib .writerTakes m message rest hd hi
  cases hH : message.Handle lib m.W m.conn .writerTakes with
  | returned W err =>
    cases err with
    | none =>
      rw [hH] at h
      exact ⟨_, Step.dispatch .writerTakes h⟩
    | some e =>
      rw [hH] at h
      exact ⟨_, Step.dispatch .writerTakes h⟩
  | sending W task chunk =>
    rw [hH] at h
    exact ⟨_, Step.dispatch .writerTakes h⟩
  | panicked msg =>
    rw [hH] at h
    exact ⟨_, Step.dispatch .writerTakes h⟩

/-- Where the invariant holds and no goroutine can move, the whole response has
been written and the drain goroutine has returned. -/
theorem Streaming.stuck {lib : Lib} {conn0 : Nat} {conns0 : List ServerConnState} {h : Nat}
    {w0 wh : ResponseWriter} {hd0 : List (Option String)} {rs : ResponseStartMessage}
    {ds : List DataMessage} {de : DataEndMessage} {m : Machine}
    (hinv : Streaming lib conn0 conns0 h w0 wh hd0 rs ds de m) (hstuck : m.Stuck lib) :
    m.inbox = [] ∧ m.disp = .idle ∧
    m.handled = hd0 ++ List.replicate (ds.length + 2) none ∧
    ∃ t, m.W.tasks[h]? = some t ∧ t.drain = .exited ∧ t.chanClosed = true ∧
      t.w = wh.writeAll lib (ds.map (fun d => d.Chunk)) := by
  obtain ⟨h1, h2, t, h3, h4, h6⟩ := hinv
  rcases h6 with ⟨hin, hidle, _⟩ | ⟨sent, todo, written, dw, dsp, a1, a2, a3, a4, a6, a7, a8, a9, a10⟩
  · obtain ⟨m1, hs⟩ := dispatch_enabled lib m _ _ hidle hin
    exact absurd hs (hstuck m1)
  · cases hdr : t.drain with
    | notStarted => rw [hdr] at a10; exact absurd a10 id
    | writing c =>
      exfalso
      have : (m.drainWrite lib h).isSome := by
        simp only [Machine.drainWrite, h3, hdr, Option.isSome_some]
      obtain ⟨m1, hm1⟩ := Option.isSome_iff_exists.1 this
      exact hstuck _ (Step.drainWrite h hm1)
    | selecting =>
      exfalso
      cases hcl : t.chanClosed with
      | true =>
        have : (m.drainClosed h).isSome := by
          simp only [Machine.drainClosed, h3, hdr, hcl, and_self, if_true, Option.isSome_some]
        obtain ⟨m1, hm1⟩ := Option.isSome_iff_exists.1 this
        exact hstuck _ (Step.drainClosed h hm1)
      | false =>
        cases dsp with
        | some c =>
          simp only [] at a6
          have : (m.drainRecv h).isSome := by
            simp only [Machine.drainRecv, a6, h3, hdr, hcl, and_self, if_true,
              Option.isSome_some]
          obtain ⟨m1, hm1⟩ := Option.isSome_iff_exists.1 this
          exact hstuck _ (Step.drainRecv h hm1)
        | none =>
          simp only [] at a6
          rw [hcl] at a8
          simp only [Bool.false_eq_true, if_false] at a8
          cases todo with
          | nil =>
            obtain ⟨m1, hs⟩ := dispatch_enabled lib m _ _ a6 a8
            exact hstuck m1 hs
          | cons d todo1 =>
            obtain ⟨m1, hs⟩ := dispatch_enabled lib m _ _ a6 a8
            exact hstuck m1 hs
    | exited =>
      rw [hdr] at a10
      simp only [] at a10
      obtain ⟨hdw, hcl⟩ := a10
      obtain ⟨hdsp, htodo⟩ := a9 hcl
      subst hdw
      subst hdsp
      subst htodo
      simp only [List.append_nil, Option.toList] at a1 a2
      subst a1
      rw [hcl] at a8 a7
      have hlen : written.length = ds.length := by
        rw [← a2, List.length_map]
      refine ⟨a8, a6, ?_, t, h3, hdr, hcl, ?_⟩
      · rw [a7, hlen]
        simp only [Option.toList, List.length_nil, if_true]
        congr 2
        omega
      · rw [a2]
        exact a3

/-- A machine is stuck once its message loop cannot go on and none of its tasks
has a goroutine that can move. -/
theorem stuck_of_quiet (lib : Lib) (m : Machine)
    (hloop : m.inbox = [] ∨ m.disp ≠ .idle)
    (hrecv : m.disp = .idle ∨
      ∀ t ∈ m.W.tasks, ¬ (t.drain = .selecting ∧ t.chanClosed = false))
    (htasks : ∀ t ∈ m.W.tasks,
      (t.drain = .exited ∨ t.drain = .notStarted ∨
        (t.drain = .selecting ∧ t.ctxDone = false ∧ t.chanClosed = false)) ∧
      (t.handler ≠ .waiting ∨ t.drain ≠ .exited)) :
    m.Stuck lib := by
  have hmem : ∀ (h : Nat) (t : HttpTask), m.W.tasks[h]? = some t → t ∈ m.W.tasks := by
    intro h t ht
    exact List.getElem?_mem ht
  intro m1 hs
  cases hs with
  | dispatch env hd =>
    rcases hloop with h | h
    · rw [dispatch_empty lib env m h] at hd; simp at hd
    · rw [dispatch_not_idle lib env m h] at hd; simp at hd
  | drainCancel h hd =>
    unfold Machine.drainCancel at hd
    split at hd
    · rename_i t ht
      split at hd
      · rename_i hc
        rcases (htasks t (hmem h t ht)).1 with h1 | h1 | h1
        · rw [hc.1] at h1; simp at h1
        · rw [hc.1] at h1; simp at h1
        · rw [hc.2] at h1; simp at h1
      · simp at hd
    · simp at hd
  | drainClosed h hd =>
    unfold Machine.drainClosed at hd
    split at hd
    · rename_i t ht
      split at hd
      · rename_i hc
        rcases (htasks t (hmem h t ht)).1 with h1 | h1 | h1
        · rw [hc.1] at h1; simp at h1
        · rw [hc.1] at h1; simp at h1
        · rw [hc.2] at h1; simp at h1
      · simp at hd
    · simp at hd
  | drainRecv h hd =>
    unfold Machine.drainRecv at hd
    split at hd
    · rename_i task chunk t hdisp ht
      split at hd
      · rename_i hc
        rcases hrecv with h1 | h1
        · rw [hdisp] at h1; simp at h1
        · exact h1 t (hmem h t ht) ⟨hc.2.1, hc.2.2⟩
      · simp at hd
    · simp at hd
  | drainWrite h hd =>
    unfold Machine.drainWrite at hd
    split at hd
    · rename_i t ht
      split at hd
      · rename_i chunk hdr
        rcases (htasks t (hmem h t ht)).1 with h1 | h1 | h1
        · rw [hdr] at h1; simp at h1
        · rw [hdr] at h1; simp at h1
        · rw [hdr] at h1; simp at h1
      · simp at hd
    · simp at hd
  | handlerReturn h hd =>
    unfold Machine.handlerReturn at hd
    split at hd
    · rename_i t ht
      split at hd
      · rename_i hc
        rcases (htasks t (hmem h t ht)).2 with h1 | h1
        · exact h1 hc.1
        · exact h1 hc.2
      · simp at hd
    · simp at hd

/-! ## Streaming a response: claims -/

/-- C5 (as amended). Streaming response state machine. Take a pending request
with id `m` whose channel `respBodyChan` is open, whose drain goroutine waits
in its `select`, whose request context is not cancelled, and on whose response
the header is not written yet. Let the inbox of the session hold
`response-start{m, s, H}`, `data{m, c1}`, ..., `data{m, cn}`, `data-end{m}`,
where `s` is a status code from 200 to 999, no two keys of `H` name the same
header, and the response writer, once `response-start` is handled, returns a
nil error for the writes of `c1`, ..., `cn` in turn. Then every run of the
goroutines ends (it has at most `weight` steps, and a final state is reached),
and in every final state all `n + 2` calls of `Handle` have returned nil,
`WriteHeader(s)` has been called once after the calls made before and `s` is
the status of the response, the header `transfer-encoding` is `chunked`, every
other key of `H` has its value, the body is `c1 ++ ... ++ cn` appended to what
was there, and the drain goroutine has returned. -/
theorem streaming_response (lib : Lib) (m0 : Machine) (st : ServerConnState)
    (req : RequestObject) (t0 : HttpTask) (rs : ResponseStartMessage) (ds : List DataMessage)
    (de : DataEndMessage)
    (hconn : m0.W.conns[m0.conn]? = some st)
    (hreq : st.OngoingRequests rs.ID = some req)
    (htask : m0.W.tasks[req.task]? = some t0)
    (hopen : t0.chanClosed = false) (hdrain : t0.drain = .selecting)
    (hctx : t0.ctxDone = false) (hfresh : t0.w.sent = none)
    (hcode : 200 ≤ rs.StatusCode ∧ rs.StatusCode ≤ 999)
    (hacc : ∀ wh, rs.writeHead lib t0.w = some wh →
      wh.acceptsAll lib (ds.map (fun d => d.Chunk)) = true)
    (hids : ∀ d ∈ ds, d.ID = rs.ID) (hde : de.ID = rs.ID)
    (hkeys : (rs.Headers.map (fun kv => lib.canon kv.1)).Nodup)
    (hidle : m0.disp = .idle)
    (hin : m0.inbox = responseScript rs ds de) :
    (∃ n m, Run lib n m0 m ∧ m.Stuck lib) ∧
    (∀ n m, Run lib n m0 m → n ≤ m0.weight) ∧
    (∀ n m, Run lib n m0 m → m.Stuck lib →
      m.inbox = [] ∧ m.disp = .idle ∧
      m.handled = m0.handled ++ List.replicate (ds.length + 2) none ∧
      ∃ t, m.W.tasks[req.task]? = some t ∧ t.drain = .exited ∧
        t.w.status = t0.w.status ++ [rs.StatusCode] ∧
        t.w.sent = some rs.StatusCode ∧
        t.w.body = t0.w.body ++ (ds.map (fun d => d.Chunk)).flatten ∧
        Header.Get lib.canon t.w.header "transfer-encoding" = "chunked" ∧
        ∀ k v, (k, v) ∈ rs.Headers → lib.canon k ≠ lib.canon "transfer-encoding" →
          Header.Get lib.canon t.w.header k = v) := by
  obtain ⟨wh, hwh, hsent⟩ := writeHead_final lib rs t0.w hfresh hcode
  have hall := writeAll_of_acceptsAll lib wh _ (hacc wh hwh)
  have hf := WriteHeader_fields _ _ _ hwh
  have hinv0 : Streaming lib m0.conn m0.W.conns req.task t0.w wh m0.handled rs ds de m0 :=
    ⟨rfl, rfl, t0, htask, hctx, Or.inl ⟨hin, hidle, rfl, rfl, hdrain, hopen⟩⟩
  refine ⟨exists_stuck lib m0, ?_, ?_⟩
  · intro n m hrun
    have := hrun.weight_le
    omega
  · intro n m hrun hstuck
    have hinv := Streaming.run hconn hreq hids hde hwh (hacc wh hwh) hrun hinv0
    obtain ⟨h1, h2, h3, t, h4, h5, _, h6⟩ := hinv.stuck hstuck
    have hh := writeHead_header lib rs t0.w wh hwh hkeys
    refine ⟨h1, h2, h3, t, h4, h5, ?_, ?_, ?_, ?_, ?_⟩
    · rw [h6, hall.2.1, hf.2.1]
    · rw [h6]
      exact hall.2.2.2 _ hsent
    · rw [h6, hall.2.2.1, hf.2.2.1]
    · rw [h6, hall.1]
      exact hh.1
    · rw [h6, hall.1]
      exact hh.2

/-- Witness for `streaming_response`: status 200, headers
`{content-type: text/plain}`, chunks `hel` and `lo` give the body `hello`. -/
theorem streaming_response_witness :
    (∃ n m, Run exampleLib n (exampleMachine false exampleScript) m ∧ m.Stuck exampleLib) ∧
    (∀ n m, Run exampleLib n (exampleMachine false exampleScript) m → n ≤ 14) ∧
    (∀ n m, Run exampleLib n (exampleMachine false exampleScript) m → m.Stuck exampleLib →
      m.inbox = [] ∧ m.disp = .idle ∧
      m.handled = [none, none, none, none] ∧
      ∃ t, m.W.tasks[0]? = some t ∧ t.drain = .exited ∧
        t.w.status = [200] ∧
        t.w.sent = some 200 ∧
        t.w.body = [104, 101, 108, 108, 111] ∧
        Header.Get exampleLib.canon t.w.header "transfer-encoding" = "chunked" ∧
        ∀ k v, (k, v) ∈ [("content-type", "text/plain")] →
          exampleLib.canon k ≠ exampleLib.canon "transfer-encoding" →
          Header.Get exampleLib.canon t.w.header k = v) :=
  streaming_response exampleLib (exampleMachine false exampleScript) _ { ID := "m", task := 0 } _
    { type := "response-start", ID := "m", StatusCode := 200, StatusMessage := "OK",
      Headers := [("content-type", "text/plain")] }
    [{ type := "data", ID := "m", Chunk := [104, 101, 108] },
     { type := "data", ID := "m", Chunk := [108, 111] }]
    { type := "data-end", ID := "m", Error := none }
    rfl rfl rfl rfl rfl rfl rfl (by decide)
    (fun wh h => by
      have e := Option.some.inj h
      subst e
      rfl)
    (by decide) rfl (by decide) rfl rfl

/-- C5 as stated fails, in five ways. (1) The example request is admitted with a
body and its channel is open, but its HTTP client has gone away: the drain
goroutine takes `<-r.Context().Done()` and returns, `onRequest` returns,
`response-start` is handled, and then `DataMessage.Handle` for the chunk `hel`
blocks for ever in its channel send: no goroutine can move, only one `Handle`
call has returned, two messages stay in the inbox, and the body is empty.
(2) With the headers `a: 1` and `A: 2`, which name the same header, the header
holds the value of the key that `range` visits last, so the other key does not
have its value. (3) With the status code 0 (the value of an absent
`statusCode`), `WriteHeader` panics, so `Handle` does not return. (4) With the
status 204 the writer refuses a body: `Write` of the chunk `hel` returns an
error, the drain goroutine returns, `onRequest` returns, and
`DataMessage.Handle` for the chunk `lo` blocks for ever; the body is empty.
(5) After an earlier `response-start` with status 200, the status 404 of a
second one is not written: the status of the response stays 200. -/
theorem streaming_response_fails :
    (∃ m, Run exampleLib 4 (exampleMachine true exampleScript) m ∧ m.Stuck exampleLib ∧
      m.disp = .sending 0 [104, 101, 108] ∧ m.handled = [none] ∧
      m.inbox = [.data { type := "data", ID := "m", Chunk := [108, 111] },
                 .dataEnd { type := "data-end", ID := "m", Error := none }] ∧
      m.W.tasks[0]?.map (fun t => (t.drain, t.w.body)) = some (.exited, [])) ∧
    (∃ W1, ResponseStartMessage.Handle exampleLib
        { type := "response-start", ID := "m", StatusCode := 200, StatusMessage := "OK",
          Headers := [("a", "1"), ("A", "2")] } (exampleWorld false) 0 = .returned W1 none ∧
      W1.tasks[0]?.map (fun t => Header.Get exampleLib.canon t.w.header "a") = some "2") ∧
    (∃ W1, ResponseStartMessage.Handle exampleLib
        { type := "response-start", ID := "m", StatusCode := 200, StatusMessage := "OK",
          Headers := [("A", "2"), ("a", "1")] } (exampleWorld false) 0 = .returned W1 none ∧
      W1.tasks[0]?.map (fun t => Header.Get exampleLib.canon t.w.header "A") = some "1") ∧
    (ResponseStartMessage.Handle exampleLib
        { type := "response-start", ID := "m", StatusCode := 0, StatusMessage := "",
          Headers := [("content-type", "text/plain")] } (exampleWorld false) 0
        = .panicked "invalid WriteHeader code" ∧
      ∃ m, Run exampleLib 1 (exampleMachine false (responseScript
          { type := "response-start", ID := "m", StatusCode := 0, StatusMessage := "",
            Headers := [("content-type", "text/plain")] }
          [{ type := "data", ID := "m", Chunk := [104, 101, 108] },
           { type := "data", ID := "m", Chunk := [108, 111] }]
          { type := "data-end", ID := "m", Error := none })) m ∧
        m.disp = .panicked "invalid WriteHeader code" ∧ m.handled = [] ∧
        m.W.tasks[0]?.map (fun t => (t.w.status, t.w.body)) = some ([], [])) ∧
    (∃ m, Run exampleLib 6 (exampleMachine false (responseScript
          { type := "response-start", ID := "m", StatusCode := 204, StatusMessage := "",
            Headers := [("content-type", "text/plain")] }
          [{ type := "data", ID := "m", Chunk := [104, 101, 108] },
           { type := "data", ID := "m", Chunk := [108, 111] }]
          { type := "data-end", ID := "m", Error := none })) m ∧
      m.Stuck exampleLib ∧ m.disp = .sending 0 [108, 111] ∧ m.handled = [none, none] ∧
      m.inbox = [.dataEnd { type := "data-end", ID := "m", Error := none }] ∧
      m.W.tasks[0]?.map (fun t => (t.drain, t.w.sent, t.w.body))
        = some (.exited, some 204, [])) ∧
    (∃ W1 W2, ResponseStartMessage.Handle exampleLib
        { type := "response-start", ID := "m", StatusCode := 200, StatusMessage := "OK",
          Headers := [] } (exampleWorld false) 0 = .returned W1 none ∧
      ResponseStartMessage.Handle exampleLib
        { type := "response-start", ID := "m", StatusCode := 404, StatusMessage := "",
          Headers := [] } W1 0 = .returned W2 none ∧
      W2.tasks[0]?.map (fun t => (t.w.status, t.w.sent)) = some ([200, 404], some 200)) := by
  refine ⟨⟨_, Run.step (Step.drainCancel 0 rfl) (Run.step (Step.handlerReturn 0 rfl)
    (Run.step (Step.dispatch .writerTakes rfl)
    (Run.step (Step.dispatch .writerTakes rfl) (Run.refl _)))), ?_, rfl, rfl, rfl, rfl⟩,
    ⟨_, rfl, by decide⟩, ⟨_, rfl, by decide⟩,
    ⟨rfl, _, Run.step (Step.dispatch .writerTakes rfl) (Run.refl _), rfl, rfl, rfl⟩,
    ⟨_, Run.step (Step.dispatch .writerTakes rfl) (Run.step (Step.dispatch .writerTakes rfl)
      (Run.step (Step.drainRecv 0 rfl) (Run.step (Step.drainWrite 0 rfl)
      (Run.step (Step.handlerReturn 0 rfl) (Run.step (Step.dispatch .writerTakes rfl)
      (Run.refl _)))))), ?_, rfl, rfl, rfl, rfl⟩,
    ⟨_, _, rfl, rfl, rfl⟩⟩
  · apply stuck_of_quiet
    · right; decide
    · right; decide
    · decide
  · apply stuck_of_quiet
    · right; decide
    · right; decide
    · decide

/-! ## The request multiplexer: claims -/

/-- C6. Host without agent. For every request that is not a websocket upgrade
and whose `Host` has no entry in `hostToClientID`, or whose client id has no
entry in `serverStates`, `onRequest` writes the status 400 and nothing else to
the response, returns without starting the drain goroutine, and leaves every
session (its channel, its `OngoingRequests`) and both maps as they were. -/
theorem onRequest_host_without_agent (lib : Lib) (W : World) (w : ResponseWriter)
    (r : Request) (messageID : String) (env : Nat → SendEnv)
    (hup : r.HeaderGet lib.canon "upgrade" ≠ "websocket")
    (hno : W.hostToClientID r.Host = none ∨
      ∃ cid, W.hostToClientID r.Host = some cid ∧ W.serverStates cid = none) :
    ∃ t, (onRequest lib W w r messageID env).1.tasks[(onRequest lib W w r messageID env).2]?
        = some t ∧
      w.WriteHeader 400 = some t.w ∧ t.w.status = w.status ++ [400] ∧ t.w.body = w.body ∧
      t.handler = .returned ∧ t.drain = .notStarted ∧
      (onRequest lib W w r messageID env).1.conns = W.conns ∧
      (onRequest lib W w r messageID env).1.serverStates = W.serverStates ∧
      (onRequest lib W w r messageID env).1.hostToClientID = W.hostToClientID := by
  obtain ⟨w1, hw1⟩ := WriteHeader_400 w
  have hf := WriteHeader_fields _ _ _ hw1
  have key : onRequest lib W w r messageID env =
      ({ W with tasks := W.tasks ++ [{ w := w1, chanClosed := false,
                                       ctxDone := r.ctxDone, drain := .notStarted,
                                       handler := .returned }] }, W.tasks.length) := by
    rcases hno with h | ⟨cid, h1, h2⟩
    · simp only [onRequest, hup, if_false, h, hw1]
    · simp only [onRequest, hup, if_false, h1, h2, hw1]
  rw [key]
  exact ⟨{ w := w1, chanClosed := false, ctxDone := r.ctxDone,
           drain := .notStarted, handler := .returned },
    by simp, hw1, hf.2.1, hf.2.2.1, rfl, rfl, rfl, rfl, rfl⟩

/-- Witness for `onRequest_host_without_agent`: `GET /` with `Host:
unknown.test` on a fresh server. -/
theorem onRequest_host_without_agent_witness :
    ∃ t, (onRequest exampleLib New freshWriter
          { Header := [], Host := "unknown.test", Method := "GET", Path := "/", RawQuery := "",
            Body := some [], ctxDone := false } "m" (fun _ => .writerTakes)).1.tasks[
        (onRequest exampleLib New freshWriter
          { Header := [], Host := "unknown.test", Method := "GET", Path := "/", RawQuery := "",
            Body := some [], ctxDone := false } "m" (fun _ => .writerTakes)).2]? = some t ∧
      freshWriter.WriteHeader 400 = some t.w ∧ t.w.status = [400] ∧ t.w.body = [] ∧
      t.handler = .returned ∧ t.drain = .notStarted ∧
      (onRequest exampleLib New freshWriter
          { Header := [], Host := "unknown.test", Method := "GET", Path := "/", RawQuery := "",
            Body := some [], ctxDone := false } "m" (fun _ => .writerTakes)).1.conns = [] ∧
      (onRequest exampleLib New freshWriter
          { Header := [], Host := "unknown.test", Method := "GET", Path := "/", RawQuery := "",
            Body := some [], ctxDone := false } "m" (fun _ => .writerTakes)).1.serverStates
        = New.serverStates ∧
      (onRequest exampleLib New freshWriter
          { Header := [], Host := "unknown.test", Method := "GET", Path := "/", RawQuery := "",
            Body := some [], ctxDone := false } "m" (fun _ => .writerTakes)).1.hostToClientID
        = New.hostToClientID :=
  onRequest_host_without_agent exampleLib New freshWriter
    { Header := [], Host := "unknown.test", Method := "GET", Path := "/", RawQuery := "",
      Body := some [], ctxDone := false } "m" (fun _ => .writerTakes) (by decide) (Or.inl rfl)

/-- C10 fails on the code: no path of `onRequest` deletes the entry it stored.
(1) The example request `m` is pending and `onRequest` waits for the drain
goroutine; `data-end{m}` is dispatched and `Handle` returns nil, the drain
goroutine returns, `onRequest` returns, no goroutine can move any more, and
`OngoingRequests` still holds the entry for `m`. (2) When the channel is closed
while `request-start` is being sent, `onRequest` returns and `OngoingRequests`
holds the entry for `m`. -/
theorem pending_entry_not_released :
    (∃ m, Run exampleLib 3
        (exampleMachine false [.dataEnd { type := "data-end", ID := "m", Error := none }]) m ∧
      m.Stuck exampleLib ∧ m.inbox = [] ∧ m.handled = [none] ∧
      m.W.tasks[0]?.map (fun t => (t.drain, t.handler)) = some (.exited, .returned) ∧
      (m.W.conns[0]?.bind (fun st => st.OngoingRequests "m")) = some { ID := "m", task := 0 }) ∧
    ((onRequest exampleLib exampleServer freshWriter (exampleRequest false) "m"
        (fun _ => .closedMeanwhile)).1.tasks[0]?.map (fun t => t.handler) = some .returned ∧
     ((onRequest exampleLib exampleServer freshWriter (exampleRequest false) "m"
        (fun _ => .closedMeanwhile)).1.conns[0]?.bind (fun st => st.OngoingRequests "m"))
        = some { ID := "m", task := 0 }) := by
  refine ⟨⟨_, Run.step (Step.dispatch .writerTakes rfl) (Run.step (Step.drainClosed 0 rfl)
    (Run.step (Step.handlerReturn 0 rfl) (Run.refl _))), ?_, rfl, rfl, rfl, rfl⟩, rfl, rfl⟩
  apply stuck_of_quiet
  · left; rfl
  · left; rfl
  · decide

/-! ## Forwarding the request body: lemmas -/

theorem requestDataChunks_append (xs ys : List ServerMessage) :
    requestDataChunks (xs ++ ys) = requestDataChunks xs ++ requestDataChunks ys := by
  induction xs with
  | nil => rfl
  | cons x xs ih =>
    cases x <;> simp [requestDataChunks, ih]

/-- A `Read` leaves the buffer as long as it was. -/
theorem read_buffer_length (data buf : Bytes) :
    ((data ++ buf.drop data.length).take buf.length).length = buf.length := by
  simp only [List.length_take, List.length_append, List.length_drop]
  omega

/-- Every `request-data` message that the body loop sends carries a chunk as
long as the whole buffer, however many bytes the `Read` before it returned. -/
theorem forwardBody_chunks (messageID : String) (env : Nat → SendEnv) (reads : List ReadResult)
    (buf : Bytes) (k : Nat) (ch : duplexChan) :
    ∃ extra, requestDataChunks (forwardBody messageID env reads buf k ch).1.send
        = requestDataChunks ch.send ++ extra ∧
      ∀ c ∈ extra, c.length = buf.length := by
  induction reads generalizing buf k ch with
  | nil => exact ⟨[], by simp [forwardBody], by simp⟩
  | cons rd rest ih =>
    unfold forwardBody
    cases herr : rd.err with
    | some e =>
      cases e with
      | eof => exact ⟨[], by simp, by simp⟩
      | other => exact ⟨[], by simp, by simp⟩
    | none =>
      simp only []
      obtain ⟨closed, done, send⟩ := ch
      cases closed with
      | true =>
        simp only [duplexChan.Send, if_true]
        exact ⟨[], by simp, by simp⟩
      | false =>
        cases henv : env k with
        | closedMeanwhile =>
          simp only [duplexChan.Send, henv, Bool.false_eq_true, if_false]
          exact ⟨[], by simp, by simp⟩
        | writerTakes =>
          simp only [duplexChan.Send, henv, Bool.false_eq_true, if_false]
          obtain ⟨extra, h1, h2⟩ := ih ((rd.data ++ buf.drop rd.data.length).take buf.length)
            (k + 1)
            { closed := false, done := done, send := send ++ [.requestData
              { Chunk := (rd.data ++ buf.drop rd.data.length).take buf.length,
                ID := messageID, type := "request-data" }] }
          refine ⟨(rd.data ++ buf.drop rd.data.length).take buf.length :: extra, ?_, ?_⟩
          · rw [h1, requestDataChunks_append]
            simp [requestDataChunks]
          · intro c hc
            rcases List.mem_cons.1 hc with h | h
            · rw [h]; exact read_buffer_length _ _
            · rw [h2 c h]; exact read_buffer_length _ _

/-! ## Forwarding the request body: claims -/

set_option maxRecDepth 100000 in
/-- C11 fails on the code. (1) The body `hi` arrives in one `Read` that returns
2 bytes and a nil error: `onRequest` sends `request-start`, one `request-data`
and `request-end`, and the chunk of the `request-data` message is the whole
1024-byte buffer, `hi` followed by 1022 zero bytes, not the 2 bytes read.
(2) The body `hi` arrives in one `Read` that returns 2 bytes together with
`io.EOF`: the loop breaks before sending, so only `request-start` and
`request-end` are sent and no chunk carries the body. -/
theorem request_data_carries_whole_buffer :
    (examplePostQueue [{ data := [104, 105], err := none }]).length = 3 ∧
    requestDataChunks (examplePostQueue [{ data := [104, 105], err := none }])
      = [[104, 105] ++ List.replicate 1022 0] ∧
    (requestDataChunks (examplePostQueue [{ data := [104, 105], err := none }])).map List.length
      = [1024] ∧
    (examplePostQueue [{ data := [104, 105], err := some .eof }]).length = 2 ∧
    requestDataChunks (examplePostQueue [{ data := [104, 105], err := some .eof }]) = [] := by
  refine ⟨by decide, by decide, by decide, by decide, by decide⟩

/-! ## Dispatch: lemmas and claims -/

/-- A `response-start`, `data` or `data-end` message whose id has no entry in
`OngoingRequests` makes `Handle` return an error and change nothing. -/
theorem Handle_no_pending_entry (lib : Lib) (W : World) (conn : Nat) (st : ServerConnState)
    (env : SendEnv) (message : ClientMessage) (hst : W.conns[conn]? = some st)
    (hid : st.OngoingRequests message.GetID = none)
    (hkind : (∃ s, message = .responseStart s) ∨ (∃ s, message = .data s) ∨
      (∃ s, message = .dataEnd s)) :
    message.Handle lib W conn env
      = .returned W (some ("no ongoing request found for id " ++ message.GetID)) := by
  rcases hkind with ⟨s, rfl⟩ | ⟨s, rfl⟩ | ⟨s, rfl⟩
  · simp only [ClientMessage.GetID] at hid
    simp only [ClientMessage.Handle, ResponseStartMessage.Handle, hst, hid, ClientMessage.GetID]
  · simp only [ClientMessage.GetID] at hid
    simp only [ClientMessage.Handle, DataMessage.Handle, hst, hid, ClientMessage.GetID]
  · simp only [ClientMessage.GetID] at hid
    simp only [ClientMessage.Handle, DataEndMessage.Handle, hst, hid, ClientMessage.GetID]

/-- C12 fails on the code. The example request `m` is pending. (1) The agent
sends `data-end{m}` twice and then `ws-opened`: the first `Handle` returns nil
and leaves the entry for `m` in `OngoingRequests`, the second finds it, closes
the closed channel and panics; the message loop takes no further message.
(2) The agent sends `data-end{m}` and then `data{m, lo}`: `DataMessage.Handle`
sends on the closed channel and panics. -/
theorem dispatch_panics_after_data_end :
    (∃ m, Run exampleLib 2
        (exampleMachine false
          [.dataEnd { type := "data-end", ID := "m", Error := none },
           .dataEnd { type := "data-end", ID := "m", Error := none },
           .wsOpened { type := "ws-opened", ID := "w" }]) m ∧
      m.disp = .panicked "close of closed channel" ∧ m.handled = [none] ∧
      m.inbox = [.wsOpened { type := "ws-opened", ID := "w" }] ∧
      ∀ env, m.dispatch exampleLib env = none) ∧
    (∃ m, Run exampleLib 2
        (exampleMachine false
          [.dataEnd { type := "data-end", ID := "m", Error := none },
           .data { type := "data", ID := "m", Chunk := [108, 111] }]) m ∧
      m.disp = .panicked "send on closed channel" ∧ m.handled = [none] ∧
      ∀ env, m.dispatch exampleLib env = none) := by
  refine ⟨⟨_, Run.step (Step.dispatch .writerTakes rfl)
      (Run.step (Step.dispatch .writerTakes rfl) (Run.refl _)), rfl, rfl, rfl, ?_⟩,
    ⟨_, Run.step (Step.dispatch .writerTakes rfl)
      (Run.step (Step.dispatch .writerTakes rfl) (Run.refl _)), rfl, rfl, ?_⟩⟩
  · intro env
    exact dispatch_not_idle exampleLib env _ (by decide)
  · intro env
    exact dispatch_not_idle exampleLib env _ (by decide)

end Warp
